import Mathlib

/-!
# Mod pack handlers of factorio-server-manager

A shallow embedding of `src/api/mod_modpack_handler.go`.

The handlers are glue code: they call into package `factorio` (the mod pack
registry, the mod lists, the mod portal client), into `archive/zip`, `os`,
`io`, `path/filepath` and into the response writer.  None of these is part of
the file, so the embedding takes them as an environment `Env σ` over an
arbitrary world state `σ` (disk, network, the in-memory registry) and threads
the state through the handler in the order of the source.  Every call the
handler makes is recorded as an `Event`; a handler is a total function from the
request and the initial state to the list of events and the final state.
-/

namespace ModPackHandler

/-! ## Data model -/

/-- Modelled from the spec: `factorio.Version` is declared in package `factorio`;
the spec describes it as an ordered tuple of non-negative integers. -/
abbrev Version := List Nat

/-- Modelled from the spec: `Version.Equals` is declared in package `factorio`;
the spec gives it as component-wise equality, with no partial or range match. -/
def Version.Equals : Version → Version → Bool
  | [], [] => true
  | a :: as, b :: bs => a == b && Version.Equals as bs
  | _, _ => false

/-- One element of `details.Releases`, with the three fields the handler reads. -/
structure Release where
  Version : Version
  DownloadURL : String
  FileName : String
deriving DecidableEq, Repr

/-- The first result of `factorio.ModPortalModDetails`, with the fields the handler reads. -/
structure ModPortalDetails where
  Name : String
  Releases : List Release
deriving DecidableEq, Repr

/-- One element of `ListInstalledMods().ModsResult`. -/
structure ModInfo where
  Name : String
  FileName : String
  Enabled : Bool
deriving DecidableEq, Repr

/-- One element of the batch install request body. -/
structure Datum where
  Name : String
  Version : Version
deriving DecidableEq, Repr

/-- The values the handlers store in `resp` (an `interface{}` in the source). -/
inductive Resp where
  /-- the nil interface: `resp` was never assigned -/
  | unset
  /-- a string: an error message, or the pack name in the delete handler -/
  | text (msg : String)
  /-- a boolean: `true`, or the state returned by `ToggleMod` -/
  | flag (b : Bool)
  /-- the result of `ListInstalledMods()` -/
  | mods (installed : List ModInfo)
  /-- one installed mod (update handler) -/
  | mod (m : ModInfo)
deriving DecidableEq, Repr

/-- The calls a handler makes, in program order.  An event records that the
call site was reached with these arguments; what the callee answered is the
business of the environment. -/
inductive Event where
  | setHeader (key value : String)
  | writeHeader (statusCode : Nat)
  | log (msg : String)
  | writeResponse (resp : Resp)
  | newModPackMap
  | deleteModPack (name : String)
  | createEmptyModPack (name : String)
  | loadModPack (pack : String)
  | listInstalledMods (pack : String)
  | toggleMod (pack modName : String)
  | deleteMod (pack modName : String)
  | updateMod (pack modName downloadUrl filename : String)
  | uploadMod (pack file : String)
  | downloadMod (pack downloadURL fileName modName : String)
  | modPortalModDetails (name : String)
  | formFileClose
  /-- a run-time panic: the deferred calls after it run while the handler unwinds -/
  | panic (msg : String)
  | zipNewWriter
  | zipCreate (name : String)
  | osOpen (path : String)
  | ioCopy (path : String)
  | fileClose (path : String)
  | zipClose
deriving DecidableEq, Repr

/-- The calls on the response writer and the logger. -/
def Event.isWriterCall : Event → Bool
  | Event.setHeader _ _ => true
  | Event.writeHeader _ => true
  | Event.log _ => true
  | _ => false

/-- The arguments `filepath.Walk` hands to its callback for one item: the path
and `info`.  When `Lstat` failed on the path, `info` is nil (`infoIsNil`) and
the error goes to the third argument, which the callback does not read;
otherwise `name` and `isDir` are the results of `info.Name()` (the base name of
the file) and `info.IsDir()`. -/
structure WalkItem where
  path : String
  name : String
  isDir : Bool
  infoIsNil : Bool
deriving DecidableEq, Repr

/-- Modelled from the spec: `factorio.ModPackMap` is declared in package
`factorio`; the spec gives it as a mapping from pack name to pack with unique
keys.  The handlers read the packs through the environment, so the map is its
keys. -/
abbrev ModPackMap := List String

/-- Modelled from the spec: the method `ModPackMap.CheckModPackExists` is declared
in package `factorio`; the spec gives it as a pure membership check against the
built map. -/
def ModPackMap.CheckModPackExists (modPackMap : ModPackMap) (modPackName : String) : Bool :=
  decide (modPackName ∈ modPackMap)

/-- The collaborators of the handlers.  An error result is `Option String`:
`none` is Go's `nil`, `some msg` an error whose `Error()` is `msg`. -/
structure Env (σ : Type) where
  /-- whether `factorio.ModPackMap`, declared outside the file, maps a name to a
  pointer: indexing a key that is absent then gives nil, and `.Mods` on it is a
  nil dereference; otherwise it gives the zero value of the pack -/
  MapOfPointers : Bool
  /-- the call `factorio.NewModPackMap()`: the keys of the map, and the error -/
  NewModPackMap : σ → (ModPackMap × Option String) × σ
  DeleteModPack : String → σ → Option String × σ
  CreateEmptyModPack : String → σ → Option String × σ
  LoadModPack : String → σ → Option String × σ
  /-- the call `packMap[pack].Mods.ListInstalledMods()`, a read -/
  ListInstalledMods : String → σ → List ModInfo
  ToggleMod : String → String → σ → (Option String × Bool) × σ
  DeleteMod : String → String → σ → Option String × σ
  UpdateMod : String → String → String → String → σ → Option String × σ
  UploadMod : String → String → σ → Option String × σ
  DownloadMod : String → String → String → String → σ → Option String × σ
  /-- the call `factorio.ModPortalModDetails(name)`: details, error, status code -/
  ModPortalModDetails : String → σ → (ModPortalDetails × Option String × Nat) × σ
  /-- the field `bootstrap.GetConfig().FactorioModPackDir` -/
  FactorioModPackDir : String
  /-- the items `filepath.Walk` visits under a root, in walk order, each with the
  `os.FileInfo` that `Lstat` gave for it, or without one when `Lstat` failed -/
  WalkItems : String → σ → List WalkItem
  ZipCreate : String → σ → Option String × σ
  OsOpen : String → σ → Option String × σ
  IoCopy : String → σ → Option String × σ
  FileClose : String → σ → Option String × σ

/-- The outcome of `ReadFromRequestBody(w, r, &resp, &data)` on a request.  The
function lives in another file of package `api`; what it leaves behind is part
of the request here. -/
structure BodyRead (α : Type) where
  /-- the returned error -/
  err : Option String
  /-- the target struct after the call -/
  data : α
  /-- the value stored through the `resp` pointer, when one is stored -/
  resp : Option Resp
  /-- the header and log calls it makes -/
  events : List Event
  /-- it is handed the response writer and the request, and nothing of the registry -/
  writerOnly : ∀ e ∈ events, e.isWriterCall = true

/-- A request: the `modpack` route variable and the outcome of reading the body. -/
structure Request (α : Type) where
  modpack : String
  body : BodyRead α

/-- An upload request: the `modpack` route variable and the result of
`r.FormFile("mod_file")`, an error or the uploaded file. -/
structure UploadRequest where
  modpack : String
  formFile : Except String String

/-- What a handler body leaves when it returns: the `resp` variable, the calls made, the state. -/
structure Body (σ : Type) where
  resp : Resp
  events : List Event
  state : σ

/-- What a handler did: the calls made, the state left. -/
structure Outcome (σ : Type) where
  events : List Event
  state : σ

/-- The deferred `WriteResponse(w, resp)` of the handlers: it runs when the body returns. -/
def deferWriteResponse {σ : Type} (b : Body σ) : Outcome σ :=
  ⟨b.events ++ [Event.writeResponse b.resp], b.state⟩

/-- What `%s` prints for an `error` value; a nil error prints as `%!s(<nil>)`. -/
def fmtErr : Option String → String
  | some msg => msg
  | none => "%!s(<nil>)"

def StatusOK : Nat := 200
def StatusBadRequest : Nat := 400
def StatusNotFound : Nat := 404
def StatusInternalServerError : Nat := 500

def jsonHeader : Event := Event.setHeader "Content-Type" "application/json;charset=UTF-8"

/-! ## Reading the pack name and checking the registry (lines 17-51) -/

/-- Result of `CheckModPackExists`: the returned error and the calls made.  The
parameter `resp` is an `interface{}` passed by value, so the assignment on line 20
changes the local variable only: it reaches the log line and nothing else. -/
structure CheckResult where
  err : Option String
  events : List Event

def CheckModPackExists (modPackMap : ModPackMap) (modPackName : String) (_resp : Resp) :
    CheckResult :=
  let exists_ := modPackMap.CheckModPackExists modPackName
  if !exists_ then
    let resp := "requested modPack \x7b" ++ modPackName ++ "\x7d does not exist"
    ⟨some "requested modPack does not exist", [Event.log resp, Event.writeHeader StatusNotFound]⟩
  else
    ⟨none, []⟩

/-- Result of `CreateNewModPackMap` and `ReadModPackRequest`: the named results
of the source, the caller's `resp` after the call, the calls made, the state. -/
structure ReadResult (σ : Type) where
  err : Option String
  packMap : ModPackMap
  modPackName : String
  resp : Resp
  events : List Event
  state : σ

def CreateNewModPackMap {σ : Type} (env : Env σ) (resp : Resp) (s : σ) : ReadResult σ :=
  match env.NewModPackMap s with
  | ((modPackMap, some err), s1) =>
    let msg := "Error creating modpackmap aka. list of all modpacks files : " ++ err
    ⟨some err, modPackMap, "", Resp.text msg,
      [Event.newModPackMap, Event.writeHeader StatusInternalServerError, Event.log msg], s1⟩
  | ((modPackMap, none), s1) => ⟨none, modPackMap, "", resp, [Event.newModPackMap], s1⟩

def ReadModPackRequest {σ : Type} (env : Env σ) (modpack : String) (resp : Resp) (s : σ) :
    ReadResult σ :=
  let modPackName := modpack
  let created := CreateNewModPackMap env resp s
  if created.err.isSome then
    { created with modPackName := modPackName }
  else
    let checked := CheckModPackExists created.packMap modPackName created.resp
    { created with
        modPackName := modPackName
        err := checked.err
        events := created.events ++ checked.events }

/-! ## Pack handlers (lines 109-221) -/

def ModPackDeleteHandler {σ : Type} (env : Env σ) (modpack : String) (s : σ) : Outcome σ :=
  deferWriteResponse <|
    let req := ReadModPackRequest env modpack Resp.unset s
    if req.err.isSome then
      ⟨req.resp, jsonHeader :: req.events, req.state⟩
    else
      match env.DeleteModPack req.modPackName req.state with
      | (some err, s1) =>
        let msg := "Error deleting modpack file: " ++ err
        ⟨Resp.text msg,
          jsonHeader :: req.events ++ [Event.deleteModPack req.modPackName,
            Event.writeHeader StatusInternalServerError, Event.log msg], s1⟩
      | (none, s1) =>
        ⟨Resp.text req.modPackName,
          jsonHeader :: req.events ++ [Event.deleteModPack req.modPackName], s1⟩

/-- Result of the walk or of one call of its callback: the error that ended it,
the calls, the state, and whether the end was a run-time panic (the error is
then the one of the panic, and nothing is returned). -/
structure Walked (σ : Type) where
  err : Option String
  events : List Event
  state : σ
  panicked : Bool

/-- Lines 154-184: the callback handed to `filepath.Walk`.  It does not read its
third argument, so for an item without `info` the method call `info.IsDir()` on
line 155 is a nil dereference.  The deferred `file.Close()` runs when the
callback returns after a successful open; its error is logged when the copy
succeeded and never reaches the result, which is unnamed. -/
def walkFn {σ : Type} (env : Env σ) (item : WalkItem) (s : σ) : Walked σ :=
  if item.infoIsNil then
    ⟨some "invalid memory address or nil pointer dereference",
      [Event.panic "invalid memory address or nil pointer dereference"], s, true⟩
  else if item.isDir == false then
    match env.ZipCreate item.name s with
    | (some err, s1) =>
      ⟨some err, [Event.zipCreate item.name,
        Event.log ("error on creating new file inside zip: " ++ err)], s1, false⟩
    | (none, s1) =>
      match env.OsOpen item.path s1 with
      | (some err, s2) =>
        ⟨some err, [Event.zipCreate item.name, Event.osOpen item.path,
          Event.log ("error on opening modfile: " ++ err)], s2, false⟩
      | (none, s2) =>
        match env.IoCopy item.path s2 with
        | (some err, s3) =>
          ⟨some err, [Event.zipCreate item.name, Event.osOpen item.path, Event.ioCopy item.path,
            Event.log ("error on copying file into zip: " ++ err), Event.fileClose item.path],
            (env.FileClose item.path s3).2, false⟩
        | (none, s3) =>
          match env.FileClose item.path s3 with
          | (some err2, s4) =>
            ⟨none, [Event.zipCreate item.name, Event.osOpen item.path, Event.ioCopy item.path,
              Event.fileClose item.path, Event.log ("Error closing file: " ++ err2)], s4, false⟩
          | (none, s4) =>
            ⟨none, [Event.zipCreate item.name, Event.osOpen item.path, Event.ioCopy item.path,
              Event.fileClose item.path], s4, false⟩
  else
    ⟨none, [], s, false⟩

/-- The call `filepath.Walk(root, walkFn)` on the items it visits: the callback
runs on each item in walk order; the first error it returns ends the walk and
is the result, and a panic of the callback ends the walk without a result.  The
errors of the callback are those of `zipWriter.Create`, `os.Open` and `io.Copy`;
none of them is the sentinel `filepath.SkipDir`. -/
def walk {σ : Type} (env : Env σ) : List WalkItem → σ → Walked σ
  | [], s => ⟨none, [], s, false⟩
  | item :: rest, s =>
    let visited := walkFn env item s
    match visited.err with
    | some err => ⟨some err, visited.events, visited.state, visited.panicked⟩
    | none =>
      let more := walk env rest visited.state
      ⟨more.err, visited.events ++ more.events, more.state, more.panicked⟩

/-- The call `filepath.Join(dir, name)` for a directory and a plain name. -/
def filepathJoin (dir name : String) : String := dir ++ "/" ++ name

/-- Lines 135-195.  The handler has no deferred `WriteResponse`; the deferred
`zipWriter.Close()` is registered on line 149 and runs on every return after it,
and also while the handler unwinds from a panic of the walk. -/
def ModPackDownloadHandler {σ : Type} (env : Env σ) (modpack : String) (s : σ) : Outcome σ :=
  let req := ReadModPackRequest env modpack Resp.unset s
  if req.err.isSome then
    ⟨req.events ++ [jsonHeader, Event.writeResponse req.resp], req.state⟩
  else
    let opened := req.events ++
      [Event.setHeader "Content-Disposition"
        ("attachment; filename=\"" ++ req.modPackName ++ ".zip\""),
       Event.zipNewWriter]
    let walked := walk env
      (env.WalkItems (filepathJoin env.FactorioModPackDir req.modPackName) req.state) req.state
    if walked.panicked then
      ⟨opened ++ walked.events ++ [Event.zipClose], walked.state⟩
    else
      match walked.err with
      | some err =>
        let resp := "error on walking over the modpack: " ++ err
        ⟨opened ++ walked.events ++
          [Event.log resp, Event.writeHeader StatusInternalServerError, jsonHeader,
           Event.writeResponse (Resp.text resp), Event.zipClose], walked.state⟩
      | none =>
        ⟨opened ++ walked.events ++
          [Event.setHeader "Content-Type" "application/zip;charset=UTF-8", Event.zipClose],
          walked.state⟩

def ModPackLoadHandler {σ : Type} (env : Env σ) (modpack : String) (s : σ) : Outcome σ :=
  deferWriteResponse <|
    let req := ReadModPackRequest env modpack Resp.unset s
    if req.err.isSome then
      ⟨req.resp, jsonHeader :: req.events, req.state⟩
    else
      match env.LoadModPack req.modPackName req.state with
      | (some err, s1) =>
        let msg := "Error loading modpack file: " ++ err
        ⟨Resp.text msg,
          jsonHeader :: req.events ++ [Event.loadModPack req.modPackName,
            Event.writeHeader StatusInternalServerError, Event.log msg], s1⟩
      | (none, s1) =>
        ⟨Resp.mods (env.ListInstalledMods req.modPackName s1),
          jsonHeader :: req.events ++ [Event.loadModPack req.modPackName,
            Event.listInstalledMods req.modPackName], s1⟩

/-! ## Mods inside a pack (lines 226-462) -/

def ModPackModListHandler {σ : Type} (env : Env σ) (modpack : String) (s : σ) : Outcome σ :=
  deferWriteResponse <|
    let req := ReadModPackRequest env modpack Resp.unset s
    if req.err.isSome then
      ⟨req.resp, jsonHeader :: req.events, req.state⟩
    else
      ⟨Resp.mods (env.ListInstalledMods req.modPackName req.state),
        jsonHeader :: req.events ++ [Event.listInstalledMods req.modPackName], req.state⟩

/-- Lines 243-273.  The body of the request is the struct field `ModName`.  Line
261 drops the result of `ReadFromRequestBody`, so the test on line 262 reads the
`err` of `ReadModPackRequest` again. -/
def ModPackModToggleHandler {σ : Type} (env : Env σ) (r : Request String) (s : σ) : Outcome σ :=
  deferWriteResponse <|
    let req := ReadModPackRequest env r.modpack Resp.unset s
    if req.err.isSome then
      ⟨req.resp, jsonHeader :: req.events, req.state⟩
    else
      let read := r.body
      let resp := read.resp.getD req.resp
      if req.err.isSome then
        ⟨resp, jsonHeader :: req.events ++ read.events, req.state⟩
      else
        match env.ToggleMod req.modPackName read.data req.state with
        | ((some err, _), s1) =>
          let msg := "Error toggling mod inside modPack: " ++ err
          ⟨Resp.text msg,
            jsonHeader :: req.events ++ read.events ++ [Event.toggleMod req.modPackName read.data,
              Event.writeHeader StatusInternalServerError, Event.log msg], s1⟩
        | ((none, enabled), s1) =>
          ⟨Resp.flag enabled,
            jsonHeader :: req.events ++ read.events ++
              [Event.toggleMod req.modPackName read.data], s1⟩

/-- Lines 275-307.  The body of the request is the struct field `Name`. -/
def ModPackModDeleteHandler {σ : Type} (env : Env σ) (r : Request String) (s : σ) : Outcome σ :=
  deferWriteResponse <|
    let req := ReadModPackRequest env r.modpack Resp.unset s
    if req.err.isSome then
      ⟨req.resp, jsonHeader :: req.events, req.state⟩
    else
      let read := r.body
      let resp := read.resp.getD req.resp
      if read.err.isSome then
        ⟨resp, jsonHeader :: req.events ++ read.events, req.state⟩
      else
        match env.DeleteMod req.modPackName read.data req.state with
        | (some err, s1) =>
          let msg := "Error deleting mod \x7b" ++ read.data ++ "\x7d in modpack \x7b"
            ++ req.modPackName ++ "\x7d: " ++ err
          ⟨Resp.text msg,
            jsonHeader :: req.events ++ read.events ++ [Event.deleteMod req.modPackName read.data,
              Event.writeHeader StatusInternalServerError, Event.log msg], s1⟩
        | (none, s1) =>
          ⟨Resp.flag true,
            jsonHeader :: req.events ++ read.events ++
              [Event.deleteMod req.modPackName read.data], s1⟩

/-- The request body of the update handler. -/
structure UpdateData where
  ModName : String
  DownloadUrl : String
  Filename : String
deriving DecidableEq, Repr

def ModPackModUpdateHandler {σ : Type} (env : Env σ) (r : Request UpdateData) (s : σ) :
    Outcome σ :=
  deferWriteResponse <|
    let read := r.body
    let resp := read.resp.getD Resp.unset
    if read.err.isSome then
      ⟨resp, jsonHeader :: read.events, s⟩
    else
      let req := ReadModPackRequest env r.modpack resp s
      if req.err.isSome then
        ⟨req.resp, jsonHeader :: read.events ++ req.events, req.state⟩
      else
        match env.UpdateMod req.modPackName read.data.ModName read.data.DownloadUrl
            read.data.Filename req.state with
        | (some err, s1) =>
          let msg := "Error updating mod \x7b" ++ read.data.ModName ++ "\x7d in modpack \x7b"
            ++ req.modPackName ++ "\x7d: " ++ err
          ⟨Resp.text msg,
            jsonHeader :: read.events ++ req.events ++
              [Event.updateMod req.modPackName read.data.ModName read.data.DownloadUrl
                read.data.Filename,
               Event.writeHeader StatusInternalServerError, Event.log msg], s1⟩
        | (none, s1) =>
          let called := jsonHeader :: read.events ++ req.events ++
            [Event.updateMod req.modPackName read.data.ModName read.data.DownloadUrl
              read.data.Filename,
             Event.listInstalledMods req.modPackName]
          match (env.ListInstalledMods req.modPackName s1).find?
              (fun m => m.Name == read.data.ModName) with
          | some m => ⟨Resp.mod m, called, s1⟩
          | none =>
            let msg := "Could not find mod " ++ read.data.ModName
            ⟨Resp.text msg, called ++ [Event.log msg, Event.writeHeader StatusNotFound], s1⟩

/-- Lines 362-391.  The handler sets no content type and writes no status code. -/
def ModPackModDeleteAllHandler {σ : Type} (env : Env σ) (modpack : String) (s : σ) :
    Outcome σ :=
  deferWriteResponse <|
    let req := ReadModPackRequest env modpack Resp.unset s
    if req.err.isSome then
      ⟨req.resp, req.events, req.state⟩
    else
      match env.DeleteModPack req.modPackName req.state with
      | (some err, s1) =>
        let msg := "Error deleting modPackDir: " ++ err
        ⟨Resp.text msg, req.events ++ [Event.deleteModPack req.modPackName, Event.log msg], s1⟩
      | (none, s1) =>
        match env.CreateEmptyModPack req.modPackName s1 with
        | (some err, s2) =>
          let msg := "Error recreating modPackDir: " ++ err
          ⟨Resp.text msg,
            req.events ++ [Event.deleteModPack req.modPackName,
              Event.createEmptyModPack req.modPackName, Event.log msg], s2⟩
        | (none, s2) =>
          ⟨Resp.flag true,
            req.events ++ [Event.deleteModPack req.modPackName,
              Event.createEmptyModPack req.modPackName], s2⟩

/-- Lines 393-423.  Line 412 assigns `err` and line 414 assigns it again before
anything reads it, so the handler goes on to line 414 whatever
`ReadModPackRequest` returned.  There `modPackMap[modPackName]` is indexed; for a
key that is absent from a map of pointers the field access `.Mods` panics, and the
deferred calls run while the handler unwinds.  Otherwise `UploadMod` is called.
The deferred `formFile.Close()` runs before the deferred `WriteResponse`. -/
def ModPackModUploadHandler {σ : Type} (env : Env σ) (r : UploadRequest) (s : σ) : Outcome σ :=
  deferWriteResponse <|
    match r.formFile with
    | Except.error err =>
      let msg := "error getting uploaded file: " ++ err
      ⟨Resp.text msg, [jsonHeader, Event.log msg, Event.writeHeader StatusBadRequest], s⟩
    | Except.ok file =>
      let req := ReadModPackRequest env r.modpack Resp.unset s
      if env.MapOfPointers && !req.packMap.CheckModPackExists req.modPackName then
        ⟨req.resp,
          jsonHeader :: req.events ++
            [Event.panic "invalid memory address or nil pointer dereference",
             Event.formFileClose], req.state⟩
      else
        match env.UploadMod req.modPackName file req.state with
        | (some err, s1) =>
          let msg := "error saving file to modPack: " ++ err
          ⟨Resp.text msg,
            jsonHeader :: req.events ++ [Event.uploadMod req.modPackName file, Event.log msg,
              Event.writeHeader StatusInternalServerError, Event.formFileClose], s1⟩
        | (none, s1) =>
          ⟨Resp.mods (env.ListInstalledMods req.modPackName s1),
            jsonHeader :: req.events ++ [Event.uploadMod req.modPackName file,
              Event.listInstalledMods req.modPackName, Event.formFileClose], s1⟩

/-- The request body of the single install handler. -/
structure InstallData where
  DownloadURL : String
  Filename : String
  ModName : String
deriving DecidableEq, Repr

def ModPackModPortalInstallHandler {σ : Type} (env : Env σ) (r : Request InstallData) (s : σ) :
    Outcome σ :=
  deferWriteResponse <|
    let read := r.body
    let resp := read.resp.getD Resp.unset
    if read.err.isSome then
      ⟨resp, jsonHeader :: read.events, s⟩
    else
      let req := ReadModPackRequest env r.modpack resp s
      if req.err.isSome then
        ⟨req.resp, jsonHeader :: read.events ++ req.events, req.state⟩
      else
        match env.DownloadMod req.modPackName read.data.DownloadURL read.data.Filename
            read.data.ModName req.state with
        | (some err, s1) =>
          let msg := "Error downloading a mod: " ++ err
          ⟨Resp.text msg,
            jsonHeader :: read.events ++ req.events ++
              [Event.downloadMod req.modPackName read.data.DownloadURL read.data.Filename
                read.data.ModName,
               Event.log msg, Event.writeHeader StatusInternalServerError], s1⟩
        | (none, s1) =>
          ⟨Resp.mods (env.ListInstalledMods req.modPackName s1),
            jsonHeader :: read.events ++ req.events ++
              [Event.downloadMod req.modPackName read.data.DownloadURL read.data.Filename
                read.data.ModName,
               Event.listInstalledMods req.modPackName], s1⟩

/-! ## Batch install (lines 464-522) -/

/-- Result of the inner loop over `details.Releases`: the variable `found`, the
value of `resp` when the handler returns from inside the loop, the calls, the state. -/
structure Scan (σ : Type) where
  found : Bool
  ret : Option Resp
  events : List Event
  state : σ

/-- Lines 500-513: the loop over the releases of one catalog entry. -/
def scanReleases {σ : Type} (env : Env σ) (pack : String) (details : ModPortalDetails)
    (version : Version) : List Release → σ → Scan σ
  | [], s => ⟨false, none, [], s⟩
  | release :: rest, s =>
    if release.Version.Equals version then
      match env.DownloadMod pack release.DownloadURL release.FileName details.Name s with
      | (some err, s1) =>
        let resp := "Error downloading mod \x7b" ++ details.Name ++ "\x7d, error: " ++ err
        ⟨true, some (Resp.text resp),
          [Event.downloadMod pack release.DownloadURL release.FileName details.Name,
           Event.log resp, Event.writeHeader StatusInternalServerError], s1⟩
      | (none, s1) =>
        ⟨true, none,
          [Event.downloadMod pack release.DownloadURL release.FileName details.Name], s1⟩
    else
      scanReleases env pack details version rest s

/-- Result of the outer loop: the value of `resp` when the handler returned from
inside the loop (`none` when the loop ran to its end), the calls, the state. -/
structure Loop (σ : Type) where
  ret : Option Resp
  events : List Event
  state : σ

/-- Lines 488-519: the loop over the requested pairs. -/
def installLoop {σ : Type} (env : Env σ) (pack : String) : List Datum → σ → Loop σ
  | [], s => ⟨none, [], s⟩
  | datum :: rest, s =>
    match env.ModPortalModDetails datum.Name s with
    | ((details, err, statusCode), s1) =>
      if err.isSome || statusCode != StatusOK then
        let resp := "Error in getting mod details from mod portal: " ++ fmtErr err
        ⟨some (Resp.text resp),
          [Event.modPortalModDetails datum.Name, Event.log resp,
           Event.writeHeader StatusInternalServerError], s1⟩
      else
        let scan := scanReleases env pack details datum.Version details.Releases s1
        match scan.ret with
        | some resp => ⟨some resp, Event.modPortalModDetails datum.Name :: scan.events, scan.state⟩
        | none =>
          let notFound :=
            if !scan.found then
              [Event.log ("Error downloading mod \x7b" ++ details.Name ++ "\x7d, error: "
                  ++ "version not found"),
               Event.writeHeader StatusInternalServerError]
            else []
          let next := installLoop env pack rest scan.state
          ⟨next.ret,
            Event.modPortalModDetails datum.Name :: scan.events ++ notFound ++ next.events,
            next.state⟩

def ModPackModPortalInstallMultipleHandler {σ : Type} (env : Env σ)
    (r : Request (List Datum)) (s : σ) : Outcome σ :=
  deferWriteResponse <|
    let read := r.body
    let resp := read.resp.getD Resp.unset
    if read.err.isSome then
      ⟨resp, jsonHeader :: read.events, s⟩
    else
      let req := ReadModPackRequest env r.modpack resp s
      if req.err.isSome then
        ⟨req.resp, jsonHeader :: read.events ++ req.events, req.state⟩
      else
        let loop := installLoop env req.modPackName read.data req.state
        match loop.ret with
        | some resp => ⟨resp, jsonHeader :: read.events ++ req.events ++ loop.events, loop.state⟩
        | none =>
          ⟨Resp.mods (env.ListInstalledMods req.modPackName loop.state),
            jsonHeader :: read.events ++ req.events ++ loop.events
              ++ [Event.listInstalledMods req.modPackName],
            loop.state⟩

/-! ## A concrete world

The theorems below hold for every environment.  Their witnesses and the
evaluations at concrete inputs use the following small world. -/

/-- Modelled from the spec: the state behind the collaborators, which are all
outside the file: the pack directories with their installed mods, the remote
catalog, the download URLs whose transfer fails, whether creating a directory
fails, the items a walk of a pack directory yields, the paths whose copy fails. -/
structure World where
  packs : List (String × List ModInfo)
  catalog : List ModPortalDetails
  unreachable : List String
  readOnly : Bool
  files : List WalkItem
  unreadable : List String
deriving DecidableEq, Repr

/-- Replace the mods of a pack. -/
def World.setMods (w : World) (pack : String) (mods : List ModInfo) : World :=
  { w with packs := w.packs.map (fun p => if p.1 == pack then (p.1, mods) else p) }

/-- The mods of a pack; none for a pack that does not exist. -/
def World.modsOf (w : World) (pack : String) : List ModInfo :=
  (w.packs.lookup pack).getD []

/-- Modelled from the spec: the collaborators over `World`, after sections 4.1 to
4.4 of the spec: the registry has one key per pack directory, `Delete` removes
the directory, `CreateEmpty` creates a pack with zero entries, `DownloadMod` and
`UploadMod` add an enabled entry after the transfer, `ToggleMod` flips the flag
of the named entry, a catalog query answers 200 with the entry or 404. -/
def World.env : Env World where
  MapOfPointers := false
  NewModPackMap w := ((w.packs.map Prod.fst, none), w)
  DeleteModPack name w :=
    if w.packs.any (fun p => p.1 == name) then
      (none, { w with packs := w.packs.filter (fun p => p.1 != name) })
    else (some "no such mod pack", w)
  CreateEmptyModPack name w :=
    if w.readOnly then (some "read-only file system", w)
    else (none, { w with packs := w.packs.filter (fun p => p.1 != name) ++ [(name, [])] })
  LoadModPack _ w := (none, w)
  ListInstalledMods pack w := w.modsOf pack
  ToggleMod pack modName w :=
    match (w.modsOf pack).find? (fun m => m.Name == modName) with
    | some m =>
      ((none, !m.Enabled), w.setMods pack ((w.modsOf pack).map
        (fun x => if x.Name == modName then { x with Enabled := !x.Enabled } else x)))
    | none => ((some "mod not found", false), w)
  DeleteMod pack modName w :=
    if (w.modsOf pack).any (fun m => m.Name == modName) then
      (none, w.setMods pack ((w.modsOf pack).filter (fun m => m.Name != modName)))
    else (some "mod not found", w)
  UpdateMod pack modName downloadUrl filename w :=
    if downloadUrl ∈ w.unreachable then (some "download failed", w)
    else (none, w.setMods pack
      ((w.modsOf pack).filter (fun m => m.Name != modName) ++ [⟨modName, filename, true⟩]))
  UploadMod pack file w :=
    if w.packs.any (fun p => p.1 == pack) then
      (none, w.setMods pack (w.modsOf pack ++ [⟨file, file, true⟩]))
    else (some "no such directory", w)
  DownloadMod pack downloadURL fileName modName w :=
    if downloadURL ∈ w.unreachable then (some "download failed", w)
    else (none, w.setMods pack
      ((w.modsOf pack).filter (fun m => m.Name != modName) ++ [⟨modName, fileName, true⟩]))
  ModPortalModDetails name w :=
    match w.catalog.find? (fun d => d.Name == name) with
    | some d => ((d, none, 200), w)
    | none => ((⟨"", []⟩, none, 404), w)
  FactorioModPackDir := "mod_packs"
  WalkItems _ w := w.files
  ZipCreate _ w := (none, w)
  OsOpen _ w := (none, w)
  IoCopy path w := if path ∈ w.unreadable then (some "unexpected EOF", w) else (none, w)
  FileClose _ w := (none, w)

/-- The same collaborators when the registry maps a name to a pointer. -/
def World.pointerEnv : Env World := { World.env with MapOfPointers := true }

def entryA : ModPortalDetails :=
  ⟨"modA", [⟨[1, 0, 0], "/download/modA/1", "modA_1.0.0.zip"⟩]⟩

def entryB : ModPortalDetails :=
  ⟨"modB", [⟨[1, 0, 0], "/download/modB/1", "modB_1.0.0.zip"⟩,
            ⟨[2, 0, 0], "/download/modB/2", "modB_2.0.0.zip"⟩]⟩

def entryC : ModPortalDetails :=
  ⟨"modC", [⟨[1, 0, 0], "/download/modC/1", "modC_1.0.0.zip"⟩]⟩

/-- The catalog of the examples: `modA`, `modB` and `modC`, none with a release `9.9.9`. -/
def demoCatalog : List ModPortalDetails := [entryA, entryB, entryC]

/-- A world with one empty pack `vanilla-plus` and the catalog of the examples. -/
def demoWorld : World :=
  { packs := [("vanilla-plus", [])]
    catalog := demoCatalog
    unreachable := []
    readOnly := false
    files := []
    unreadable := [] }

/-- The same world when the transfer of release 2.0.0 of `modB` fails. -/
def brokenLinkWorld : World := { demoWorld with unreachable := ["/download/modB/2"] }

/-- The same world when no directory can be created. -/
def readOnlyWorld : World := { demoWorld with readOnly := true }

/-- The same world when the pack directory holds two mod files and the manifest. -/
def filledWorld : World :=
  { demoWorld with
    files := [⟨"mod_packs/vanilla-plus", "vanilla-plus", true, false⟩,
              ⟨"mod_packs/vanilla-plus/modA_1.0.0.zip", "modA_1.0.0.zip", false, false⟩,
              ⟨"mod_packs/vanilla-plus/modB_1.0.0.zip", "modB_1.0.0.zip", false, false⟩,
              ⟨"mod_packs/vanilla-plus/mod-list.json", "mod-list.json", false, false⟩] }

/-- The same directory when the content of the first mod file cannot be read to its end. -/
def damagedWorld : World :=
  { filledWorld with unreadable := ["mod_packs/vanilla-plus/modA_1.0.0.zip"] }

/-- The same directory when the second mod file is removed after the directory
was read and before `Lstat` reaches it. -/
def vanishedWorld : World :=
  { demoWorld with
    files := [⟨"mod_packs/vanilla-plus", "vanilla-plus", true, false⟩,
              ⟨"mod_packs/vanilla-plus/modA_1.0.0.zip", "modA_1.0.0.zip", false, false⟩,
              ⟨"mod_packs/vanilla-plus/modB_1.0.0.zip", "", false, true⟩,
              ⟨"mod_packs/vanilla-plus/mod-list.json", "mod-list.json", false, false⟩] }

/-- A request whose body was read and decoded without error. -/
def okRequest {α : Type} (modpack : String) (data : α) : Request α :=
  ⟨modpack, ⟨none, data, none, [], by simp⟩⟩

/-! ## Observations on a trace -/

/-- Whether an event is a call of `DownloadMod`. -/
def Event.isDownload : Event → Bool
  | Event.downloadMod _ _ _ _ => true
  | _ => false

/-- The `DownloadMod` calls of a trace, in program order. -/
def downloadCalls (events : List Event) : List Event := events.filter Event.isDownload

/-- Whether an event is a catalog query. -/
def Event.isQuery : Event → Bool
  | Event.modPortalModDetails _ => true
  | _ => false

/-- The catalog queries of a trace, in program order. -/
def catalogQueries (events : List Event) : List Event := events.filter Event.isQuery

/-- The calls the batch install handler is built from: the response writer and
the logger, the registry scan, catalog queries, `DownloadMod` and the final
listing.  Every delete, recreate, toggle, update, upload and archive call is
outside. -/
def Event.isBatchInstallCall : Event → Bool
  | Event.setHeader _ _ => true
  | Event.writeHeader _ => true
  | Event.log _ => true
  | Event.writeResponse _ => true
  | Event.newModPackMap => true
  | Event.modPortalModDetails _ => true
  | Event.downloadMod _ _ _ _ => true
  | Event.listInstalledMods _ => true
  | _ => false

/-- The operations on a pack: load, toggle, delete, update, upload, download,
deletion and recreation of the pack, listing, and the archive calls of the
export. -/
def Event.isPackOperation : Event → Bool
  | Event.deleteModPack _ => true
  | Event.createEmptyModPack _ => true
  | Event.loadModPack _ => true
  | Event.listInstalledMods _ => true
  | Event.toggleMod _ _ => true
  | Event.deleteMod _ _ => true
  | Event.updateMod _ _ _ _ => true
  | Event.uploadMod _ _ => true
  | Event.downloadMod _ _ _ _ => true
  | Event.zipNewWriter => true
  | Event.zipCreate _ => true
  | Event.osOpen _ => true
  | Event.ioCopy _ => true
  | Event.fileClose _ => true
  | Event.zipClose => true
  | _ => false

/-- Whether an event is a call of `zipWriter.Create`. -/
def Event.isZipCreate : Event → Bool
  | Event.zipCreate _ => true
  | _ => false

/-- The archive entries a trace creates, in program order. -/
def entryCalls (events : List Event) : List Event := events.filter Event.isZipCreate

/-- The status code the client sees: the first `WriteHeader` counts, 200 when there is none. -/
def statusOf : List Event → Nat
  | [] => StatusOK
  | Event.writeHeader code :: _ => code
  | _ :: rest => statusOf rest

/-- The value handed to `WriteResponse`, when it was called. -/
def responseOf : List Event → Option Resp
  | [] => none
  | Event.writeResponse resp :: _ => some resp
  | _ :: rest => responseOf rest

/-- The calls of `ReadModPackRequest` for a pack that is not in the registry. -/
def notFoundEvents (modpack : String) : List Event :=
  [Event.newModPackMap,
   Event.log ("requested modPack \x7b" ++ modpack ++ "\x7d does not exist"),
   Event.writeHeader StatusNotFound]

/-- The calls of the walk callback: archive entry, open, copy, close, log, and
the panic on an item without `info`. -/
def Event.isWalkCall : Event → Bool
  | Event.panic _ => true
  | Event.zipCreate _ => true
  | Event.osOpen _ => true
  | Event.ioCopy _ => true
  | Event.fileClose _ => true
  | Event.log _ => true
  | _ => false

/-- A toggle or delete request for `vanilla-plus` whose body is not valid JSON:
`ReadFromRequestBody` fails, writes status 400 and leaves the struct empty. -/
def brokenBodyRequest : Request String :=
  ⟨"vanilla-plus",
    ⟨some "unexpected end of JSON input", "", some (Resp.text "Error reading request body"),
      [Event.writeHeader StatusBadRequest], by simp [Event.isWriterCall]⟩⟩

/-! ## The claims of the spec, in its words -/

/-- The spec side of a batch whose pairs each resolve and download, one after
the other from state `s`: the `DownloadMod` calls of the matched releases, one per
pair and in input order, and the state left.  It is `none` as soon as a pair does
not resolve (query error, status other than 200, no release with the requested
version) or does not download. -/
def installsAll {σ : Type} (env : Env σ) (pack : String) : List Datum → σ → Option (List Event × σ)
  | [], s => some ([], s)
  | datum :: rest, s =>
    match env.ModPortalModDetails datum.Name s with
    | ((details, none, statusCode), s1) =>
      if statusCode = StatusOK then
        match details.Releases.find? (fun r => decide (r.Version = datum.Version)) with
        | some release =>
          match env.DownloadMod pack release.DownloadURL release.FileName details.Name s1 with
          | (none, s2) =>
            (installsAll env pack rest s2).map fun done =>
              (Event.downloadMod pack release.DownloadURL release.FileName details.Name :: done.1,
                done.2)
          | (some _, _) => none
        | none => none
      else none
    | ((_, some _, _), _) => none

/-- The spec side of one pair that fails from state `s`: the catalog query
fails, or the entry has no release with the requested version, or the download
of the matched release fails. -/
def pairFails {σ : Type} (env : Env σ) (pack : String) (datum : Datum) (s : σ) : Bool :=
  match env.ModPortalModDetails datum.Name s with
  | ((details, none, statusCode), s1) =>
    if statusCode = StatusOK then
      match details.Releases.find? (fun r => decide (r.Version = datum.Version)) with
      | some release =>
        (env.DownloadMod pack release.DownloadURL release.FileName details.Name s1).1.isSome
      | none => true
    else true
  | ((_, some _, _), _) => true

/-- The third claim as the spec words it: when the first pairs `done` each
resolve and download and the next pair fails, the `DownloadMod` calls of the
handler are exactly those of the matched releases of `done`. -/
def AppliesExactlyTheFirstPairs {σ : Type} (env : Env σ) (pack : String)
    (done : List Datum) (failing : Datum) (rest : List Datum) (s : σ) : Prop :=
  ∀ calls s1, installsAll env pack done ((env.NewModPackMap s).2) = some (calls, s1) →
    pairFails env pack failing s1 = true →
    downloadCalls (ModPackModPortalInstallMultipleHandler env
      (okRequest pack (done ++ failing :: rest)) s).events = calls

/-- The eighth claim as the spec words it: once a step of the walk has failed
and the handler has taken note of the error, the archive writer is not closed. -/
def NotClosedAfterError {σ : Type} (env : Env σ) (modpack : String) (s : σ) : Prop :=
  ∀ err before after,
    (ModPackDownloadHandler env modpack s).events =
      before ++ Event.log ("error on walking over the modpack: " ++ err) :: after →
    Event.zipClose ∉ after

/-! ## Reading the pack name -/

theorem Version.Equals_iff (a b : Version) : a.Equals b = true ↔ a = b := by
  induction a generalizing b with
  | nil => cases b <;> simp [Version.Equals]
  | cons x xs ih => cases b <;> simp [Version.Equals, ih]

theorem ReadModPackRequest_present {σ : Type} (env : Env σ) (modpack : String) (resp : Resp)
    (s s0 : σ) (keys : List String) (hmap : env.NewModPackMap s = ((keys, none), s0))
    (hpack : modpack ∈ keys) :
    ReadModPackRequest env modpack resp s = ⟨none, keys, modpack, resp, [Event.newModPackMap], s0⟩ := by
  simp [ReadModPackRequest, CreateNewModPackMap, CheckModPackExists,
    ModPackMap.CheckModPackExists, hmap, hpack]

theorem ReadModPackRequest_absent {σ : Type} (env : Env σ) (modpack : String) (resp : Resp)
    (s s0 : σ) (keys : List String) (hmap : env.NewModPackMap s = ((keys, none), s0))
    (hpack : modpack ∉ keys) :
    ReadModPackRequest env modpack resp s =
      ⟨some "requested modPack does not exist", keys, modpack, resp,
        [Event.newModPackMap,
         Event.log ("requested modPack \x7b" ++ modpack ++ "\x7d does not exist"),
         Event.writeHeader StatusNotFound], s0⟩ := by
  simp [ReadModPackRequest, CreateNewModPackMap, CheckModPackExists,
    ModPackMap.CheckModPackExists, hmap, hpack]

/-! ## Batch install -/

/-- The inner loop in one formula: nothing happens up to the first release whose
version is the requested one, that release is handed to `DownloadMod`, and the
loop ends there. -/
theorem scanReleases_eq {σ : Type} (env : Env σ) (pack : String) (details : ModPortalDetails)
    (version : Version) (releases : List Release) (s : σ) :
    scanReleases env pack details version releases s =
      match releases.find? (fun r => decide (r.Version = version)) with
      | none => ⟨false, none, [], s⟩
      | some release =>
        match env.DownloadMod pack release.DownloadURL release.FileName details.Name s with
        | (some err, s1) =>
          ⟨true, some (Resp.text ("Error downloading mod \x7b" ++ details.Name ++ "\x7d, error: "
              ++ err)),
            [Event.downloadMod pack release.DownloadURL release.FileName details.Name,
             Event.log ("Error downloading mod \x7b" ++ details.Name ++ "\x7d, error: " ++ err),
             Event.writeHeader StatusInternalServerError], s1⟩
        | (none, s1) =>
          ⟨true, none,
            [Event.downloadMod pack release.DownloadURL release.FileName details.Name], s1⟩ := by
  induction releases with
  | nil => simp [scanReleases]
  | cons r rest ih =>
    by_cases h : r.Version = version
    · have h2 : Version.Equals version version = true := (Version.Equals_iff _ _).2 rfl
      simp [scanReleases, h2, h]
    · have h2 : ¬ Version.Equals r.Version version = true := fun c => h ((Version.Equals_iff _ _).1 c)
      simp [scanReleases, h2, h, ih]

/-- One round of the outer loop when the catalog answers: the query, the scan of
the releases, the log line of a version that was not found, the remaining pairs. -/
theorem installLoop_cons_ok {σ : Type} (env : Env σ) (pack : String) (datum : Datum)
    (rest : List Datum) (details : ModPortalDetails) (s s1 : σ)
    (hquery : env.ModPortalModDetails datum.Name s = ((details, none, StatusOK), s1)) :
    installLoop env pack (datum :: rest) s =
      match (scanReleases env pack details datum.Version details.Releases s1).ret with
      | some resp =>
        ⟨some resp, Event.modPortalModDetails datum.Name ::
          (scanReleases env pack details datum.Version details.Releases s1).events,
          (scanReleases env pack details datum.Version details.Releases s1).state⟩
      | none =>
        ⟨(installLoop env pack rest
            (scanReleases env pack details datum.Version details.Releases s1).state).ret,
          Event.modPortalModDetails datum.Name ::
            (scanReleases env pack details datum.Version details.Releases s1).events ++
            (if !(scanReleases env pack details datum.Version details.Releases s1).found then
              [Event.log ("Error downloading mod \x7b" ++ details.Name ++ "\x7d, error: "
                  ++ "version not found"),
               Event.writeHeader StatusInternalServerError]
             else []) ++
            (installLoop env pack rest
              (scanReleases env pack details datum.Version details.Releases s1).state).events,
          (installLoop env pack rest
            (scanReleases env pack details datum.Version details.Releases s1).state).state⟩ := by
  simp [installLoop, hquery, StatusOK]

/-- A failing catalog query ends the loop: nothing of the remaining pairs is looked at. -/
theorem installLoop_cons_query_failed {σ : Type} (env : Env σ) (pack : String) (datum : Datum)
    (rest : List Datum) (details : ModPortalDetails) (err : Option String) (statusCode : Nat)
    (s s1 : σ)
    (hquery : env.ModPortalModDetails datum.Name s = ((details, err, statusCode), s1))
    (hfail : err ≠ none ∨ statusCode ≠ StatusOK) :
    installLoop env pack (datum :: rest) s =
      ⟨some (Resp.text ("Error in getting mod details from mod portal: " ++ fmtErr err)),
        [Event.modPortalModDetails datum.Name,
         Event.log ("Error in getting mod details from mod portal: " ++ fmtErr err),
         Event.writeHeader StatusInternalServerError], s1⟩ := by
  have h : (err.isSome || statusCode != StatusOK) = true := by
    rcases hfail with h | h
    · cases err with
      | none => exact absurd rfl h
      | some e => simp
    · simp [h]
  simp only [installLoop, hquery, h, if_true]

/-- C2: in batch install, when the catalog answers for a pair, the release handed
to `DownloadMod` is the first release, in the order of the catalog entry, whose
version equals the requested one component by component; at most one release is
downloaded for the pair; when no release has the requested version the scan makes
no call at all.  The downloads of the batch are those of the pair followed by
those of the remaining pairs.  For releases 1.0.0, 1.2.0, 2.0.0 a request of 1.2.0
downloads the 1.2.0 release and a request of 1.1.0 downloads nothing. -/
theorem C2_first_matching_release {σ : Type} (env : Env σ) (pack : String) (datum : Datum)
    (rest : List Datum) (details : ModPortalDetails) (s s1 : σ)
    (hquery : env.ModPortalModDetails datum.Name s = ((details, none, StatusOK), s1)) :
    let scan := scanReleases env pack details datum.Version details.Releases s1
    (downloadCalls (installLoop env pack (datum :: rest) s).events =
      downloadCalls scan.events ++
        (if scan.ret.isSome then []
         else downloadCalls (installLoop env pack rest scan.state).events)) ∧
    (∀ before release after, details.Releases = before ++ release :: after →
      (∀ x ∈ before, x.Version ≠ datum.Version) → release.Version = datum.Version →
      downloadCalls scan.events =
        [Event.downloadMod pack release.DownloadURL release.FileName details.Name]) ∧
    ((∀ x ∈ details.Releases, x.Version ≠ datum.Version) →
      scan.events = [] ∧ scan.found = false ∧ scan.state = s1) ∧
    (downloadCalls scan.events).length ≤ 1 ∧
    (∀ a b : Version, a.Equals b = true ↔ a = b) ∧
    (∀ u1 f1 u2 f2 u3 f3,
      details.Releases = [⟨[1, 0, 0], u1, f1⟩, ⟨[1, 2, 0], u2, f2⟩, ⟨[2, 0, 0], u3, f3⟩] →
      (datum.Version = [1, 2, 0] →
        downloadCalls scan.events = [Event.downloadMod pack u2 f2 details.Name]) ∧
      (datum.Version = [1, 1, 0] → downloadCalls scan.events = [])) := by
  intro scan
  have hscan : scan = scanReleases env pack details datum.Version details.Releases s1 := rfl
  refine ⟨?_, ?_, ?_, ?_, Version.Equals_iff, ?_⟩
  · rw [installLoop_cons_ok env pack datum rest details s s1 hquery]
    rw [← hscan]
    cases hret : scan.ret with
    | some resp => simp [downloadCalls, Event.isDownload]
    | none =>
      by_cases hfound : scan.found = true <;>
        simp [downloadCalls, Event.isDownload, hfound, List.filter_append]
  · intro before release after hsplit hbefore hmatch
    have hfind : details.Releases.find? (fun r => decide (r.Version = datum.Version))
        = some release := by
      rw [hsplit, List.find?_append]
      have : before.find? (fun r => decide (r.Version = datum.Version)) = none := by
        simpa using hbefore
      simp [this, hmatch]
    rw [hscan, scanReleases_eq, hfind]
    rcases hdl : env.DownloadMod pack release.DownloadURL release.FileName details.Name s1
      with ⟨_ | err, s2⟩ <;> simp [downloadCalls, Event.isDownload, hdl]
  · intro hnone
    have hfind : details.Releases.find? (fun r => decide (r.Version = datum.Version)) = none := by
      simpa using hnone
    rw [hscan, scanReleases_eq, hfind]
    simp
  · rw [hscan, scanReleases_eq]
    cases hfind : details.Releases.find? (fun r => decide (r.Version = datum.Version)) with
    | none => simp [downloadCalls]
    | some release =>
      rcases hdl : env.DownloadMod pack release.DownloadURL release.FileName details.Name s1
        with ⟨_ | err, s2⟩ <;> simp [downloadCalls, Event.isDownload, hdl]
  · intro u1 f1 u2 f2 u3 f3 hrel
    constructor
    · intro hv
      rw [hscan, scanReleases_eq, hrel, hv]
      rcases hdl : env.DownloadMod pack u2 f2 details.Name s1 with ⟨_ | err, s2⟩ <;>
        simp [downloadCalls, Event.isDownload, hdl]
    · intro hv
      rw [hscan, scanReleases_eq, hrel, hv]
      simp [downloadCalls]

/-- C2, at a concrete input: the request of `modB` 2.0.0 against the catalog
entry with releases 1.0.0 and 2.0.0 downloads the second release. -/
theorem C2_first_matching_release_witness :
    World.env.ModPortalModDetails "modB" demoWorld = ((entryB, none, StatusOK), demoWorld) ∧
    downloadCalls (scanReleases World.env "vanilla-plus" entryB [2, 0, 0] entryB.Releases
        demoWorld).events =
      [Event.downloadMod "vanilla-plus" "/download/modB/2" "modB_2.0.0.zip" "modB"] :=
  ⟨rfl,
    (C2_first_matching_release World.env "vanilla-plus" ⟨"modB", [2, 0, 0]⟩ [] entryB
      demoWorld demoWorld rfl).2.1
      [⟨[1, 0, 0], "/download/modB/1", "modB_1.0.0.zip"⟩]
      ⟨[2, 0, 0], "/download/modB/2", "modB_2.0.0.zip"⟩ [] rfl (by decide) rfl⟩

/-- C1: the batch `modB` 9.9.9, `modC` 1.0.0 against a catalog in which `modB` has
no release 9.9.9.  The first pair does not resolve; the handler logs it, writes
status 500 and goes on: it queries the catalog for `modC` and downloads it. -/
theorem C1_version_not_found_goes_on :
    (ModPackModPortalInstallMultipleHandler World.env
      (okRequest "vanilla-plus" [⟨"modB", [9, 9, 9]⟩, ⟨"modC", [1, 0, 0]⟩]) demoWorld).events =
      [Event.setHeader "Content-Type" "application/json;charset=UTF-8",
       Event.newModPackMap,
       Event.modPortalModDetails "modB",
       Event.log "Error downloading mod \x7bmodB\x7d, error: version not found",
       Event.writeHeader 500,
       Event.modPortalModDetails "modC",
       Event.downloadMod "vanilla-plus" "/download/modC/1" "modC_1.0.0.zip" "modC",
       Event.listInstalledMods "vanilla-plus",
       Event.writeResponse (Resp.mods [⟨"modC", "modC_1.0.0.zip", true⟩])] ∧
    pairFails World.env "vanilla-plus" ⟨"modB", [9, 9, 9]⟩ demoWorld = true ∧
    catalogQueries (ModPackModPortalInstallMultipleHandler World.env
      (okRequest "vanilla-plus" [⟨"modB", [9, 9, 9]⟩, ⟨"modC", [1, 0, 0]⟩]) demoWorld).events =
      [Event.modPortalModDetails "modB", Event.modPortalModDetails "modC"] ∧
    downloadCalls (ModPackModPortalInstallMultipleHandler World.env
      (okRequest "vanilla-plus" [⟨"modB", [9, 9, 9]⟩, ⟨"modC", [1, 0, 0]⟩]) demoWorld).events =
      [Event.downloadMod "vanilla-plus" "/download/modC/1" "modC_1.0.0.zip" "modC"] := by
  decide

/-- C4: the batch `modA` 1.0.0, `modB` 9.9.9 of the spec.  The handler writes
status 500 and logs the mod, and the response it writes is the list of installed
mods: no value naming `modB` is ever stored in `resp`. -/
theorem C4_version_not_found_answers_with_the_list :
    (ModPackModPortalInstallMultipleHandler World.env
      (okRequest "vanilla-plus" [⟨"modA", [1, 0, 0]⟩, ⟨"modB", [9, 9, 9]⟩]) demoWorld).events =
      [Event.setHeader "Content-Type" "application/json;charset=UTF-8",
       Event.newModPackMap,
       Event.modPortalModDetails "modA",
       Event.downloadMod "vanilla-plus" "/download/modA/1" "modA_1.0.0.zip" "modA",
       Event.modPortalModDetails "modB",
       Event.log "Error downloading mod \x7bmodB\x7d, error: version not found",
       Event.writeHeader 500,
       Event.listInstalledMods "vanilla-plus",
       Event.writeResponse (Resp.mods [⟨"modA", "modA_1.0.0.zip", true⟩])] ∧
    statusOf (ModPackModPortalInstallMultipleHandler World.env
      (okRequest "vanilla-plus" [⟨"modA", [1, 0, 0]⟩, ⟨"modB", [9, 9, 9]⟩]) demoWorld).events
      = 500 ∧
    responseOf (ModPackModPortalInstallMultipleHandler World.env
      (okRequest "vanilla-plus" [⟨"modA", [1, 0, 0]⟩, ⟨"modB", [9, 9, 9]⟩]) demoWorld).events
      = some (Resp.mods (World.env.ListInstalledMods "vanilla-plus"
          (ModPackModPortalInstallMultipleHandler World.env
            (okRequest "vanilla-plus" [⟨"modA", [1, 0, 0]⟩, ⟨"modB", [9, 9, 9]⟩])
            demoWorld).state)) := by
  decide

theorem isBatchInstallCall_of_isWriterCall (e : Event) (h : e.isWriterCall = true) :
    e.isBatchInstallCall = true := by
  cases e <;> simp_all [Event.isWriterCall, Event.isBatchInstallCall]

theorem isDownload_of_isWriterCall (e : Event) (h : e.isWriterCall = true) :
    e.isDownload = false := by
  cases e <;> simp_all [Event.isWriterCall, Event.isDownload]

theorem downloadCalls_bodyRead {α : Type} (read : BodyRead α) : downloadCalls read.events = [] := by
  simp only [downloadCalls, List.filter_eq_nil_iff]
  intro e he
  simp [isDownload_of_isWriterCall e (read.writerOnly e he)]

theorem scanReleases_calls {σ : Type} (env : Env σ) (pack : String) (details : ModPortalDetails)
    (version : Version) (releases : List Release) (s : σ) :
    ∀ e ∈ (scanReleases env pack details version releases s).events,
      e.isBatchInstallCall = true := by
  rw [scanReleases_eq]
  cases releases.find? (fun r => decide (r.Version = version)) with
  | none => simp
  | some release =>
    rcases hdl : env.DownloadMod pack release.DownloadURL release.FileName details.Name s
      with ⟨_ | err, s2⟩ <;> simp [hdl, Event.isBatchInstallCall]

theorem installLoop_calls {σ : Type} (env : Env σ) (pack : String) (data : List Datum) (s : σ) :
    ∀ e ∈ (installLoop env pack data s).events, e.isBatchInstallCall = true := by
  induction data generalizing s with
  | nil => simp [installLoop]
  | cons datum rest ih =>
    rcases hq : env.ModPortalModDetails datum.Name s with ⟨⟨details, err, statusCode⟩, s1⟩
    by_cases hfail : err ≠ none ∨ statusCode ≠ StatusOK
    · rw [installLoop_cons_query_failed env pack datum rest details err statusCode s s1 hq hfail]
      simp [Event.isBatchInstallCall]
    · have herr : err = none := by
        by_contra h
        exact hfail (Or.inl h)
      have hcode : statusCode = StatusOK := by
        by_contra h
        exact hfail (Or.inr h)
      subst herr hcode
      rw [installLoop_cons_ok env pack datum rest details s s1 hq]
      have hscan := scanReleases_calls env pack details datum.Version details.Releases s1
      cases (scanReleases env pack details datum.Version details.Releases s1).ret with
      | some resp =>
        intro e he
        simp only [List.mem_cons] at he
        rcases he with rfl | he
        · rfl
        · exact hscan e he
      | none =>
        intro e he
        simp only [List.cons_append, List.mem_cons, List.mem_append] at he
        rcases he with rfl | (he | he) | he
        · rfl
        · exact hscan e he
        · split at he
          · simp only [List.mem_cons, List.mem_singleton] at he
            rcases he with rfl | rfl | he
            · rfl
            · rfl
            · exact absurd he (List.not_mem_nil _)
          · exact absurd he (List.not_mem_nil _)
        · exact ih _ e he

/-- The loop on a batch whose first pairs each resolve and download: their
`DownloadMod` calls are those of the matched releases, and it carries on with the
remaining pairs from the state the last download left. -/
theorem installLoop_append_of_installsAll {σ : Type} (env : Env σ) (pack : String)
    (done tail : List Datum) (s s1 : σ) (calls : List Event)
    (h : installsAll env pack done s = some (calls, s1)) :
    calls.length = done.length ∧
    ∃ events, downloadCalls events = calls ∧
      installLoop env pack (done ++ tail) s =
        ⟨(installLoop env pack tail s1).ret, events ++ (installLoop env pack tail s1).events,
          (installLoop env pack tail s1).state⟩ := by
  induction done generalizing s calls with
  | nil =>
    simp only [installsAll, Option.some.injEq, Prod.mk.injEq] at h
    obtain ⟨rfl, rfl⟩ := h
    exact ⟨rfl, [], rfl, by simp⟩
  | cons datum rest ih =>
    rcases hq : env.ModPortalModDetails datum.Name s with ⟨⟨details, err, statusCode⟩, s2⟩
    cases err with
    | some e => simp [installsAll, hq] at h
    | none =>
      by_cases hcode : statusCode = StatusOK
      · subst hcode
        cases hfind : details.Releases.find? (fun r => decide (r.Version = datum.Version)) with
        | none => simp [installsAll, hq, hfind] at h
        | some release =>
          rcases hdl : env.DownloadMod pack release.DownloadURL release.FileName details.Name s2
            with ⟨_ | e, s3⟩
          · cases hrest : installsAll env pack rest s3 with
            | none => simp [installsAll, hq, hfind, hdl, hrest] at h
            | some done1 =>
              obtain ⟨calls1, s4⟩ := done1
              simp only [installsAll, hq, hfind, hdl, hrest, if_true, Option.map_some',
                Option.some.injEq, Prod.mk.injEq] at h
              obtain ⟨rfl, rfl⟩ := h
              obtain ⟨hlen, events, hcalls, hloop⟩ := ih s3 calls1 hrest
              refine ⟨by simp [hlen], Event.modPortalModDetails datum.Name ::
                Event.downloadMod pack release.DownloadURL release.FileName details.Name ::
                events, ?_, ?_⟩
              · simp [downloadCalls, Event.isDownload] at hcalls ⊢
                exact hcalls
              · rw [List.cons_append, installLoop_cons_ok env pack datum (rest ++ tail) details
                  s s2 hq, scanReleases_eq, hfind]
                simp [hdl, hloop]
          · simp [installsAll, hq, hfind, hdl] at h
      · simp [installsAll, hq, hcode] at h

/-- The events of the batch install handler once the body is decoded and the pack exists. -/
theorem installMultiple_events {σ : Type} (env : Env σ) (r : Request (List Datum)) (s s0 : σ)
    (keys : List String) (hbody : r.body.err = none)
    (hmap : env.NewModPackMap s = ((keys, none), s0)) (hpack : r.modpack ∈ keys) :
    ModPackModPortalInstallMultipleHandler env r s =
      match (installLoop env r.modpack r.body.data s0).ret with
      | some resp =>
        ⟨jsonHeader :: r.body.events ++ [Event.newModPackMap] ++
          (installLoop env r.modpack r.body.data s0).events ++ [Event.writeResponse resp],
          (installLoop env r.modpack r.body.data s0).state⟩
      | none =>
        ⟨jsonHeader :: r.body.events ++ [Event.newModPackMap] ++
          (installLoop env r.modpack r.body.data s0).events ++
          [Event.listInstalledMods r.modpack,
           Event.writeResponse (Resp.mods (env.ListInstalledMods r.modpack
             (installLoop env r.modpack r.body.data s0).state))],
          (installLoop env r.modpack r.body.data s0).state⟩ := by
  simp only [ModPackModPortalInstallMultipleHandler, hbody,
    ReadModPackRequest_present env r.modpack _ s s0 keys hmap hpack]
  cases (installLoop env r.modpack r.body.data s0).ret <;> simp [deferWriteResponse]

theorem installMultiple_downloadCalls {σ : Type} (env : Env σ) (r : Request (List Datum))
    (s s0 : σ) (keys : List String) (hbody : r.body.err = none)
    (hmap : env.NewModPackMap s = ((keys, none), s0)) (hpack : r.modpack ∈ keys) :
    downloadCalls (ModPackModPortalInstallMultipleHandler env r s).events =
        downloadCalls (installLoop env r.modpack r.body.data s0).events ∧
      (ModPackModPortalInstallMultipleHandler env r s).state =
        (installLoop env r.modpack r.body.data s0).state := by
  rw [installMultiple_events env r s s0 keys hbody hmap hpack]
  have hb := downloadCalls_bodyRead r.body
  simp only [downloadCalls] at hb
  cases (installLoop env r.modpack r.body.data s0).ret <;>
    simp [downloadCalls, List.filter_append, jsonHeader, Event.isDownload, hb]

theorem installMultiple_calls {σ : Type} (env : Env σ) (r : Request (List Datum)) (s : σ) :
    ∀ e ∈ (ModPackModPortalInstallMultipleHandler env r s).events,
      e.isBatchInstallCall = true := by
  have hbody : ∀ e ∈ r.body.events, e.isBatchInstallCall = true := fun e he =>
    isBatchInstallCall_of_isWriterCall e (r.body.writerOnly e he)
  have hread : ∀ resp, ∀ e ∈ (ReadModPackRequest env r.modpack resp s).events,
      e.isBatchInstallCall = true := by
    intro resp e
    rcases hm : env.NewModPackMap s with ⟨⟨keys, _ | err⟩, s0⟩
    · by_cases hp : r.modpack ∈ keys
      · rw [ReadModPackRequest_present env r.modpack resp s s0 keys hm hp]
        simp only [List.mem_singleton]
        rintro rfl
        rfl
      · rw [ReadModPackRequest_absent env r.modpack resp s s0 keys hm hp]
        simp only [List.mem_cons, List.mem_singleton]
        rintro (rfl | rfl | rfl | h)
        · rfl
        · rfl
        · rfl
        · exact absurd h (List.not_mem_nil _)
    · simp only [ReadModPackRequest, CreateNewModPackMap, hm, Option.isSome_some, if_true,
        List.mem_cons, List.mem_singleton]
      rintro (rfl | rfl | rfl | h)
      · rfl
      · rfl
      · rfl
      · exact absurd h (List.not_mem_nil _)
  have hloop := installLoop_calls env
  intro e he
  simp only [ModPackModPortalInstallMultipleHandler, deferWriteResponse] at he
  split at he
  · simp only [List.cons_append, List.mem_append, List.mem_cons, List.mem_singleton,
      List.not_mem_nil, or_false] at he
    casesm* _ ∨ _
    all_goals first
      | (subst_vars; rfl)
      | exact hbody e (by assumption)
  · split at he
    · simp only [List.cons_append, List.mem_append, List.mem_cons, List.mem_singleton,
        List.not_mem_nil, or_false] at he
      casesm* _ ∨ _
      all_goals first
        | (subst_vars; rfl)
        | exact hbody e (by assumption)
        | exact hread _ e (by assumption)
    · split at he
      all_goals
        simp only [List.cons_append, List.mem_append, List.mem_cons, List.mem_singleton,
          List.not_mem_nil, or_false] at he
        casesm* _ ∨ _
      all_goals first
        | (subst_vars; rfl)
        | exact hbody e (by assumption)
        | exact hread _ e (by assumption)
        | exact hloop _ _ _ e (by assumption)

/-- C3, as the spec words it, fails at two batches.  In the first the pair
`modA` 1.0.0 is installed and the download of `modB` 2.0.0 fails: the failed
attempt is itself a call of `DownloadMod`, so two releases were handed to it.  In
the second `modB` has no release 9.9.9 and a third pair follows: the handler goes
on and hands the release of `modC` to `DownloadMod` as well. -/
theorem C3_exactly_the_first_pairs_fails :
    ¬ AppliesExactlyTheFirstPairs World.env "vanilla-plus"
        [⟨"modA", [1, 0, 0]⟩] ⟨"modB", [2, 0, 0]⟩ [] brokenLinkWorld ∧
    ¬ AppliesExactlyTheFirstPairs World.env "vanilla-plus"
        [⟨"modA", [1, 0, 0]⟩] ⟨"modB", [9, 9, 9]⟩ [⟨"modC", [1, 0, 0]⟩] demoWorld := by
  constructor
  · intro h
    have h1 := h _ _ rfl rfl
    revert h1
    decide
  · intro h
    have h1 := h _ _ rfl rfl
    revert h1
    decide

/-- C3, amended: batch install applies partially and never rolls back.  In every
batch the handler makes no call other than on the response writer and the
logger, the registry scan, catalog queries, `DownloadMod` and the final listing:
no delete and no other undo.  When the first pairs each resolve and download
and the catalog query of the next pair fails (an error or a status other than
200), the `DownloadMod` calls are exactly those of the matched releases of the
first pairs, once each and in input order; when instead the download of the
next pair's matched release fails, they are those calls followed by the one
failed call. -/
theorem C3_partial_batch_no_rollback {σ : Type} (env : Env σ) (r : Request (List Datum))
    (s s0 s1 : σ) (keys : List String) (done : List Datum) (failing : Datum)
    (rest : List Datum) (calls : List Event)
    (hbody : r.body.err = none) (hdata : r.body.data = done ++ failing :: rest)
    (hmap : env.NewModPackMap s = ((keys, none), s0)) (hpack : r.modpack ∈ keys)
    (hdone : installsAll env r.modpack done s0 = some (calls, s1)) :
    (∀ (r2 : Request (List Datum)) (s2 : σ),
      ∀ e ∈ (ModPackModPortalInstallMultipleHandler env r2 s2).events,
        e.isBatchInstallCall = true) ∧
    calls.length = done.length ∧
    (∀ details err statusCode s2,
      env.ModPortalModDetails failing.Name s1 = ((details, err, statusCode), s2) →
      (err ≠ none ∨ statusCode ≠ StatusOK) →
      downloadCalls (ModPackModPortalInstallMultipleHandler env r s).events = calls ∧
      (ModPackModPortalInstallMultipleHandler env r s).state = s2) ∧
    (∀ details release msg s2 s3,
      env.ModPortalModDetails failing.Name s1 = ((details, none, StatusOK), s2) →
      details.Releases.find? (fun x => decide (x.Version = failing.Version)) = some release →
      env.DownloadMod r.modpack release.DownloadURL release.FileName details.Name s2
        = (some msg, s3) →
      downloadCalls (ModPackModPortalInstallMultipleHandler env r s).events =
        calls ++ [Event.downloadMod r.modpack release.DownloadURL release.FileName
          details.Name] ∧
      (ModPackModPortalInstallMultipleHandler env r s).state = s3) := by
  obtain ⟨hlen, events, hcalls, hloop⟩ :=
    installLoop_append_of_installsAll env r.modpack done (failing :: rest) s0 s1 calls hdone
  obtain ⟨hdl, hstate⟩ := installMultiple_downloadCalls env r s s0 keys hbody hmap hpack
  rw [hdata, hloop] at hdl hstate
  refine ⟨installMultiple_calls env, hlen, ?_, ?_⟩
  · intro details err statusCode s2 hq hfail
    rw [installLoop_cons_query_failed env r.modpack failing rest details err statusCode s1 s2
      hq hfail] at hdl hstate
    refine ⟨?_, hstate⟩
    rw [hdl]
    simp only [downloadCalls] at hcalls
    simp [downloadCalls, List.filter_append, hcalls, Event.isDownload]
  · intro details release msg s2 s3 hq hfind hfailed
    rw [installLoop_cons_ok env r.modpack failing rest details s1 s2 hq, scanReleases_eq,
      hfind] at hdl hstate
    simp only [hfailed] at hdl hstate
    refine ⟨?_, hstate⟩
    rw [hdl]
    simp only [downloadCalls] at hcalls
    simp [downloadCalls, List.filter_append, hcalls, Event.isDownload]

/-- C3, amended, at a concrete batch: `modA` 1.0.0 is installed, the download of
`modB` 2.0.0 fails and `modC` follows.  The calls are the one of `modA` and the
failed one of `modB`; nothing is done for `modC`. -/
theorem C3_partial_batch_no_rollback_witness :
    installsAll World.env "vanilla-plus" [⟨"modA", [1, 0, 0]⟩]
        (World.env.NewModPackMap brokenLinkWorld).2 =
      some ([Event.downloadMod "vanilla-plus" "/download/modA/1" "modA_1.0.0.zip" "modA"],
        brokenLinkWorld.setMods "vanilla-plus" [⟨"modA", "modA_1.0.0.zip", true⟩]) ∧
    downloadCalls (ModPackModPortalInstallMultipleHandler World.env
      (okRequest "vanilla-plus"
        [⟨"modA", [1, 0, 0]⟩, ⟨"modB", [2, 0, 0]⟩, ⟨"modC", [1, 0, 0]⟩])
      brokenLinkWorld).events =
      [Event.downloadMod "vanilla-plus" "/download/modA/1" "modA_1.0.0.zip" "modA",
       Event.downloadMod "vanilla-plus" "/download/modB/2" "modB_2.0.0.zip" "modB"] :=
  ⟨by decide,
    ((C3_partial_batch_no_rollback World.env
      (okRequest "vanilla-plus"
        [⟨"modA", [1, 0, 0]⟩, ⟨"modB", [2, 0, 0]⟩, ⟨"modC", [1, 0, 0]⟩])
      brokenLinkWorld brokenLinkWorld
      (brokenLinkWorld.setMods "vanilla-plus" [⟨"modA", "modA_1.0.0.zip", true⟩])
      ["vanilla-plus"] [⟨"modA", [1, 0, 0]⟩] ⟨"modB", [2, 0, 0]⟩ [⟨"modC", [1, 0, 0]⟩]
      [Event.downloadMod "vanilla-plus" "/download/modA/1" "modA_1.0.0.zip" "modA"]
      rfl rfl rfl (by decide) (by decide)).2.2.2
      entryB ⟨[2, 0, 0], "/download/modB/2", "modB_2.0.0.zip"⟩ "download failed"
      (brokenLinkWorld.setMods "vanilla-plus" [⟨"modA", "modA_1.0.0.zip", true⟩])
      (brokenLinkWorld.setMods "vanilla-plus" [⟨"modA", "modA_1.0.0.zip", true⟩])
      (by decide) (by decide) (by decide)).1⟩

/-! ## A pack that does not exist -/

/-- The ten handlers that test the error of `ReadModPackRequest`: for a pack
that is not a key of the registry they write status 404 and return.  No
operation on the pack is called, the state is the one the registry scan left,
and the value handed to `WriteResponse` is the one `resp` held before the
check: the message of `CheckModPackExists` is logged and never stored. -/
theorem absent_pack_returns {σ : Type} (env : Env σ) (modpack : String) (s s0 : σ)
    (keys : List String) (hmap : env.NewModPackMap s = ((keys, none), s0))
    (hpack : modpack ∉ keys) :
    ModPackDeleteHandler env modpack s =
      ⟨jsonHeader :: notFoundEvents modpack ++ [Event.writeResponse Resp.unset], s0⟩ ∧
    ModPackDownloadHandler env modpack s =
      ⟨notFoundEvents modpack ++ [jsonHeader, Event.writeResponse Resp.unset], s0⟩ ∧
    ModPackLoadHandler env modpack s =
      ⟨jsonHeader :: notFoundEvents modpack ++ [Event.writeResponse Resp.unset], s0⟩ ∧
    ModPackModListHandler env modpack s =
      ⟨jsonHeader :: notFoundEvents modpack ++ [Event.writeResponse Resp.unset], s0⟩ ∧
    ModPackModDeleteAllHandler env modpack s =
      ⟨notFoundEvents modpack ++ [Event.writeResponse Resp.unset], s0⟩ ∧
    (∀ body : BodyRead String,
      ModPackModToggleHandler env ⟨modpack, body⟩ s =
        ⟨jsonHeader :: notFoundEvents modpack ++ [Event.writeResponse Resp.unset], s0⟩ ∧
      ModPackModDeleteHandler env ⟨modpack, body⟩ s =
        ⟨jsonHeader :: notFoundEvents modpack ++ [Event.writeResponse Resp.unset], s0⟩) ∧
    (∀ body : BodyRead UpdateData, body.err = none →
      ModPackModUpdateHandler env ⟨modpack, body⟩ s =
        ⟨jsonHeader :: body.events ++ notFoundEvents modpack ++
          [Event.writeResponse (body.resp.getD Resp.unset)], s0⟩) ∧
    (∀ body : BodyRead InstallData, body.err = none →
      ModPackModPortalInstallHandler env ⟨modpack, body⟩ s =
        ⟨jsonHeader :: body.events ++ notFoundEvents modpack ++
          [Event.writeResponse (body.resp.getD Resp.unset)], s0⟩) ∧
    (∀ body : BodyRead (List Datum), body.err = none →
      ModPackModPortalInstallMultipleHandler env ⟨modpack, body⟩ s =
        ⟨jsonHeader :: body.events ++ notFoundEvents modpack ++
          [Event.writeResponse (body.resp.getD Resp.unset)], s0⟩) := by
  have hread := fun resp => ReadModPackRequest_absent env modpack resp s s0 keys hmap hpack
  refine ⟨?_, ?_, ?_, ?_, ?_, ?_, ?_, ?_, ?_⟩
  · simp [ModPackDeleteHandler, hread, deferWriteResponse, notFoundEvents]
  · simp [ModPackDownloadHandler, hread, notFoundEvents]
  · simp [ModPackLoadHandler, hread, deferWriteResponse, notFoundEvents]
  · simp [ModPackModListHandler, hread, deferWriteResponse, notFoundEvents]
  · simp [ModPackModDeleteAllHandler, hread, deferWriteResponse, notFoundEvents]
  · intro body
    constructor
    · simp [ModPackModToggleHandler, hread, deferWriteResponse, notFoundEvents]
    · simp [ModPackModDeleteHandler, hread, deferWriteResponse, notFoundEvents]
  · intro body hbody
    simp [ModPackModUpdateHandler, hbody, hread, deferWriteResponse, notFoundEvents]
  · intro body hbody
    simp [ModPackModPortalInstallHandler, hbody, hread, deferWriteResponse, notFoundEvents]
  · intro body hbody
    simp [ModPackModPortalInstallMultipleHandler, hbody, hread, deferWriteResponse,
      notFoundEvents]

/-- The ten handlers that test the error of `ReadModPackRequest` call no
operation on a pack that is not a key of the registry. -/
theorem absent_pack_no_operation {σ : Type} (env : Env σ) (modpack : String) (s s0 : σ)
    (keys : List String) (hmap : env.NewModPackMap s = ((keys, none), s0))
    (hpack : modpack ∉ keys) :
    (∀ e ∈ (ModPackDeleteHandler env modpack s).events, e.isPackOperation = false) ∧
    (∀ e ∈ (ModPackDownloadHandler env modpack s).events, e.isPackOperation = false) ∧
    (∀ e ∈ (ModPackLoadHandler env modpack s).events, e.isPackOperation = false) ∧
    (∀ e ∈ (ModPackModListHandler env modpack s).events, e.isPackOperation = false) ∧
    (∀ e ∈ (ModPackModDeleteAllHandler env modpack s).events, e.isPackOperation = false) ∧
    (∀ body : BodyRead String,
      (∀ e ∈ (ModPackModToggleHandler env ⟨modpack, body⟩ s).events,
        e.isPackOperation = false) ∧
      (∀ e ∈ (ModPackModDeleteHandler env ⟨modpack, body⟩ s).events,
        e.isPackOperation = false)) ∧
    (∀ body : BodyRead UpdateData, body.err = none →
      ∀ e ∈ (ModPackModUpdateHandler env ⟨modpack, body⟩ s).events,
        e.isPackOperation = false) ∧
    (∀ body : BodyRead InstallData, body.err = none →
      ∀ e ∈ (ModPackModPortalInstallHandler env ⟨modpack, body⟩ s).events,
        e.isPackOperation = false) ∧
    (∀ body : BodyRead (List Datum), body.err = none →
      ∀ e ∈ (ModPackModPortalInstallMultipleHandler env ⟨modpack, body⟩ s).events,
        e.isPackOperation = false) := by
  obtain ⟨h1, h2, h3, h4, h5, h6, h7, h8, h9⟩ :=
    absent_pack_returns env modpack s s0 keys hmap hpack
  have hquiet : ∀ (events : List Event) (resp : Resp),
      (∀ e ∈ events, e.isWriterCall = true) →
      ∀ e ∈ jsonHeader :: events ++ notFoundEvents modpack ++ [Event.writeResponse resp],
        e.isPackOperation = false := by
    intro events resp hw e he
    simp only [List.cons_append, List.mem_cons, List.mem_append, List.mem_singleton,
      notFoundEvents, jsonHeader, List.not_mem_nil, or_false] at he
    rcases he with rfl | (he | rfl | rfl | rfl) | rfl
    · rfl
    · have := hw e he
      cases e <;> simp_all [Event.isWriterCall, Event.isPackOperation]
    · rfl
    · rfl
    · rfl
    · rfl
  have hnil : ∀ e ∈ ([] : List Event), e.isWriterCall = true := fun e he =>
    absurd he (List.not_mem_nil _)
  refine ⟨?_, ?_, ?_, ?_, ?_, ?_, ?_, ?_, ?_⟩
  · rw [h1]
    exact hquiet [] _ hnil
  · rw [h2]
    intro e he
    simp only [List.mem_cons, List.mem_append, List.mem_singleton, notFoundEvents, jsonHeader,
      List.not_mem_nil, or_false] at he
    rcases he with (rfl | rfl | rfl) | rfl | rfl <;> rfl
  · rw [h3]
    exact hquiet [] _ hnil
  · rw [h4]
    exact hquiet [] _ hnil
  · rw [h5]
    intro e he
    simp only [List.mem_cons, List.mem_append, List.mem_singleton, notFoundEvents,
      List.not_mem_nil, or_false] at he
    rcases he with (rfl | rfl | rfl) | rfl <;> rfl
  · intro body
    rw [(h6 body).1, (h6 body).2]
    exact ⟨hquiet [] _ hnil, hquiet [] _ hnil⟩
  · intro body hbody
    rw [h7 body hbody]
    exact hquiet _ _ body.writerOnly
  · intro body hbody
    rw [h8 body hbody]
    exact hquiet _ _ body.writerOnly
  · intro body hbody
    rw [h9 body hbody]
    exact hquiet _ _ body.writerOnly

/-- The upload handler for a pack that is not a key of the registry, whatever
the environment: after status 404 the handler does not return, and line 414 is
evaluated: `UploadMod` is called for that pack, or the index expression panics. -/
theorem upload_absent_pack_goes_on {σ : Type} (env : Env σ) (modpack file : String)
    (s s0 : σ) (keys : List String) (hmap : env.NewModPackMap s = ((keys, none), s0))
    (hpack : modpack ∉ keys) :
    jsonHeader :: notFoundEvents modpack ++
        [if env.MapOfPointers then
          Event.panic "invalid memory address or nil pointer dereference"
         else Event.uploadMod modpack file] <+:
      (ModPackModUploadHandler env ⟨modpack, Except.ok file⟩ s).events := by
  have hread := ReadModPackRequest_absent env modpack Resp.unset s s0 keys hmap hpack
  simp only [ModPackModUploadHandler, hread, deferWriteResponse, notFoundEvents,
    ModPackMap.CheckModPackExists, hpack]
  cases env.MapOfPointers
  · rcases env.UploadMod modpack file s0 with ⟨_ | err, s1⟩
    · exact ⟨[Event.listInstalledMods modpack, Event.formFileClose,
        Event.writeResponse (Resp.mods (env.ListInstalledMods modpack s1))], by simp⟩
    · exact ⟨[Event.log ("error saving file to modPack: " ++ err),
        Event.writeHeader StatusInternalServerError, Event.formFileClose,
        Event.writeResponse (Resp.text ("error saving file to modPack: " ++ err))], by simp⟩
  · exact ⟨[Event.formFileClose, Event.writeResponse Resp.unset], by simp⟩

/-- C5: the upload of `bobplates.zip` into the pack `ghost`, which is not a key of
the registry.  The handler writes status 404 and does not return.  With a
registry of packs it calls `UploadMod` for that pack, then writes status 500 and
answers with the error of `UploadMod`; with a registry of pointers to packs the
index expression of line 414 panics. -/
theorem C5_upload_into_absent_pack :
    (ModPackModUploadHandler World.env ⟨"ghost", Except.ok "bobplates.zip"⟩ demoWorld).events =
      [Event.setHeader "Content-Type" "application/json;charset=UTF-8",
       Event.newModPackMap,
       Event.log "requested modPack \x7bghost\x7d does not exist",
       Event.writeHeader 404,
       Event.uploadMod "ghost" "bobplates.zip",
       Event.log "error saving file to modPack: no such directory",
       Event.writeHeader 500,
       Event.formFileClose,
       Event.writeResponse (Resp.text "error saving file to modPack: no such directory")] ∧
    (ModPackModUploadHandler World.pointerEnv ⟨"ghost", Except.ok "bobplates.zip"⟩
        demoWorld).events =
      [Event.setHeader "Content-Type" "application/json;charset=UTF-8",
       Event.newModPackMap,
       Event.log "requested modPack \x7bghost\x7d does not exist",
       Event.writeHeader 404,
       Event.panic "invalid memory address or nil pointer dereference",
       Event.formFileClose,
       Event.writeResponse Resp.unset] := by
  decide

/-- C6: the deletion of the pack `ghost`, which is not a key of the registry.
The message naming the pack is logged; the value handed to `WriteResponse` is
the unset `resp`. -/
theorem C6_absent_pack_answers_unset :
    (ModPackDeleteHandler World.env "ghost" demoWorld).events =
      [Event.setHeader "Content-Type" "application/json;charset=UTF-8",
       Event.newModPackMap,
       Event.log "requested modPack \x7bghost\x7d does not exist",
       Event.writeHeader 404,
       Event.writeResponse Resp.unset] ∧
    statusOf (ModPackDeleteHandler World.env "ghost" demoWorld).events = 404 ∧
    responseOf (ModPackDeleteHandler World.env "ghost" demoWorld).events = some Resp.unset := by
  decide

/-! ## Reset -/

/-- C7: reset of an existing pack is a delete followed by a recreate, with
nothing in between and nothing after.  `CreateEmptyModPack` is called exactly
when `DeleteModPack` succeeded, and after it; the response is `true` exactly when
both succeeded; when the recreation fails after a successful deletion the
handler calls nothing else, so the state is the one the failed
`CreateEmptyModPack` left: a pack that the deletion removed from the registry and
that the failed recreation did not bring back is absent at the end. -/
theorem C7_reset_is_delete_then_recreate {σ : Type} (env : Env σ) (modpack : String)
    (s s0 : σ) (keys : List String) (hmap : env.NewModPackMap s = ((keys, none), s0))
    (hpack : modpack ∈ keys) :
    let out := ModPackModDeleteAllHandler env modpack s
    let deleted := env.DeleteModPack modpack s0
    let created := env.CreateEmptyModPack modpack deleted.2
    (∀ err, deleted.1 = some err →
      out.events = [Event.newModPackMap, Event.deleteModPack modpack,
        Event.log ("Error deleting modPackDir: " ++ err),
        Event.writeResponse (Resp.text ("Error deleting modPackDir: " ++ err))] ∧
      out.state = deleted.2) ∧
    (deleted.1 = none → ∀ err, created.1 = some err →
      out.events = [Event.newModPackMap, Event.deleteModPack modpack,
        Event.createEmptyModPack modpack,
        Event.log ("Error recreating modPackDir: " ++ err),
        Event.writeResponse (Resp.text ("Error recreating modPackDir: " ++ err))] ∧
      out.state = created.2 ∧
      (modpack ∉ (env.NewModPackMap deleted.2).1.1 →
        (env.NewModPackMap created.2).1.1 = (env.NewModPackMap deleted.2).1.1 →
        modpack ∉ (env.NewModPackMap out.state).1.1)) ∧
    (deleted.1 = none → created.1 = none →
      out.events = [Event.newModPackMap, Event.deleteModPack modpack,
        Event.createEmptyModPack modpack, Event.writeResponse (Resp.flag true)] ∧
      out.state = created.2) ∧
    (Event.createEmptyModPack modpack ∈ out.events ↔ deleted.1 = none) ∧
    (responseOf out.events = some (Resp.flag true) ↔ deleted.1 = none ∧ created.1 = none) := by
  have hread := ReadModPackRequest_present env modpack Resp.unset s s0 keys hmap hpack
  dsimp only
  simp only [ModPackModDeleteAllHandler, hread, deferWriteResponse]
  rcases hd : env.DeleteModPack modpack s0 with ⟨_ | derr, s1⟩
  · rcases hc : env.CreateEmptyModPack modpack s1 with ⟨_ | cerr, s2⟩
    · simp [responseOf, hc]
    · simp only [hc]
      simp [responseOf]
      intro h1 h2
      rw [h2]
      exact h1
  · simp [responseOf]

/-- C7, at a concrete input: the reset of `vanilla-plus` when no directory can be
created.  The pack is a key of the registry before, the deletion succeeds, the
recreation fails, and the pack is not a key of the registry built from the
final state. -/
theorem C7_reset_is_delete_then_recreate_witness :
    "vanilla-plus" ∈ (World.env.NewModPackMap readOnlyWorld).1.1 ∧
    (ModPackModDeleteAllHandler World.env "vanilla-plus" readOnlyWorld).events =
      [Event.newModPackMap, Event.deleteModPack "vanilla-plus",
       Event.createEmptyModPack "vanilla-plus",
       Event.log "Error recreating modPackDir: read-only file system",
       Event.writeResponse (Resp.text "Error recreating modPackDir: read-only file system")] ∧
    "vanilla-plus" ∉ (World.env.NewModPackMap
      (ModPackModDeleteAllHandler World.env "vanilla-plus" readOnlyWorld).state).1.1 :=
  have h := (C7_reset_is_delete_then_recreate World.env "vanilla-plus" readOnlyWorld
    readOnlyWorld ["vanilla-plus"] rfl (by decide)).2.1 rfl "read-only file system" rfl
  ⟨by decide, h.1, h.2.2 (by decide) (by decide)⟩

/-! ## Toggle and delete of a mod -/

/-- Calls on the response writer and the logger come before the response. -/
theorem responseOf_append_writer (l tail : List Event) (hl : ∀ e ∈ l, e.isWriterCall = true) :
    responseOf (l ++ tail) = responseOf tail := by
  induction l with
  | nil => rfl
  | cons e es ih =>
    have he := hl e (List.mem_cons_self _ _)
    have ih2 := ih (fun x hx => hl x (List.mem_cons_of_mem _ hx))
    cases e
    case setHeader => simpa [responseOf] using ih2
    case writeHeader => simpa [responseOf] using ih2
    case log => simpa [responseOf] using ih2
    all_goals exact absurd he (by simp [Event.isWriterCall])

/-- C10: for an existing pack and a request whose body cannot be read or
decoded, the toggle handler does not return: it calls `ToggleMod` with the mod
name left in the struct, and its response is the result of that call.  The
delete handler returns on the same failure without calling `DeleteMod`, and
answers with what `ReadFromRequestBody` stored. -/
theorem C10_toggle_drops_the_body_error {σ : Type} (env : Env σ) (r : Request String)
    (s s0 : σ) (keys : List String) (msg : String)
    (hmap : env.NewModPackMap s = ((keys, none), s0)) (hpack : r.modpack ∈ keys)
    (hfail : r.body.err = some msg) :
    Event.toggleMod r.modpack r.body.data ∈ (ModPackModToggleHandler env r s).events ∧
    (ModPackModToggleHandler env r s).state = (env.ToggleMod r.modpack r.body.data s0).2 ∧
    (responseOf (ModPackModToggleHandler env r s).events =
      match (env.ToggleMod r.modpack r.body.data s0).1 with
      | (some err, _) => some (Resp.text ("Error toggling mod inside modPack: " ++ err))
      | (none, enabled) => some (Resp.flag enabled)) ∧
    (ModPackModDeleteHandler env r s).events =
      jsonHeader :: Event.newModPackMap :: r.body.events ++
        [Event.writeResponse (r.body.resp.getD Resp.unset)] ∧
    (∀ pack modName, Event.deleteMod pack modName ∉ (ModPackModDeleteHandler env r s).events) ∧
    (ModPackModDeleteHandler env r s).state = s0 := by
  have hread := ReadModPackRequest_present env r.modpack Resp.unset s s0 keys hmap hpack
  have hw : ∀ e ∈ r.body.events, e.isWriterCall = true := r.body.writerOnly
  have htoggle : ModPackModToggleHandler env r s =
      match env.ToggleMod r.modpack r.body.data s0 with
      | ((some err, _), s1) =>
        ⟨jsonHeader :: Event.newModPackMap :: (r.body.events ++
          [Event.toggleMod r.modpack r.body.data, Event.writeHeader StatusInternalServerError,
           Event.log ("Error toggling mod inside modPack: " ++ err),
           Event.writeResponse (Resp.text ("Error toggling mod inside modPack: " ++ err))]), s1⟩
      | ((none, enabled), s1) =>
        ⟨jsonHeader :: Event.newModPackMap :: (r.body.events ++
          [Event.toggleMod r.modpack r.body.data, Event.writeResponse (Resp.flag enabled)]),
          s1⟩ := by
    simp only [ModPackModToggleHandler, hread, deferWriteResponse]
    rcases env.ToggleMod r.modpack r.body.data s0 with ⟨⟨_ | err, enabled⟩, s1⟩ <;> simp
  have hdelete : ModPackModDeleteHandler env r s =
      ⟨jsonHeader :: Event.newModPackMap :: (r.body.events ++
        [Event.writeResponse (r.body.resp.getD Resp.unset)]), s0⟩ := by
    simp [ModPackModDeleteHandler, hread, hfail, deferWriteResponse]
  rw [htoggle, hdelete]
  refine ⟨?_, ?_, ?_, ?_, ?_, rfl⟩
  · rcases env.ToggleMod r.modpack r.body.data s0 with ⟨⟨_ | err, enabled⟩, s1⟩ <;> simp
  · rcases env.ToggleMod r.modpack r.body.data s0 with ⟨⟨_ | err, enabled⟩, s1⟩ <;> simp
  · rcases env.ToggleMod r.modpack r.body.data s0 with ⟨⟨_ | err, enabled⟩, s1⟩
    · simp only [jsonHeader, responseOf]
      rw [responseOf_append_writer _ _ hw]
      simp [responseOf]
    · simp only [jsonHeader, responseOf]
      rw [responseOf_append_writer _ _ hw]
      simp [responseOf]
  · simp
  · intro pack modName hmem
    simp only [List.mem_cons, List.mem_append, List.mem_singleton, jsonHeader,
      List.not_mem_nil, or_false] at hmem
    rcases hmem with h | h | h | h
    · cases h
    · cases h
    · have := hw _ h
      simp [Event.isWriterCall] at this
    · cases h

/-- C10, at a concrete input: a body that is not valid JSON, the struct left
empty.  The toggle handler calls `ToggleMod` with the empty mod name; the delete
handler makes no call on the pack. -/
theorem C10_toggle_drops_the_body_error_witness :
    (World.env.NewModPackMap demoWorld = ((["vanilla-plus"], none), demoWorld) ∧
      brokenBodyRequest.modpack ∈ ["vanilla-plus"] ∧
      brokenBodyRequest.body.err = some "unexpected end of JSON input") ∧
    Event.toggleMod "vanilla-plus" "" ∈
      (ModPackModToggleHandler World.env brokenBodyRequest demoWorld).events ∧
    (ModPackModDeleteHandler World.env brokenBodyRequest demoWorld).events =
      [Event.setHeader "Content-Type" "application/json;charset=UTF-8", Event.newModPackMap,
       Event.writeHeader 400, Event.writeResponse (Resp.text "Error reading request body")] :=
  have h := C10_toggle_drops_the_body_error World.env brokenBodyRequest demoWorld demoWorld
    ["vanilla-plus"] "unexpected end of JSON input" rfl (by decide) rfl
  ⟨⟨rfl, by decide, rfl⟩, h.1, h.2.2.2.1⟩

/-! ## Export -/

theorem walkFn_nil {σ : Type} (env : Env σ) (item : WalkItem) (s : σ)
    (h : item.infoIsNil = true) :
    walkFn env item s =
      ⟨some "invalid memory address or nil pointer dereference",
        [Event.panic "invalid memory address or nil pointer dereference"], s, true⟩ := by
  simp [walkFn, h]

theorem walkFn_dir {σ : Type} (env : Env σ) (item : WalkItem) (s : σ)
    (hinfo : item.infoIsNil = false) (h : item.isDir = true) :
    walkFn env item s = ⟨none, [], s, false⟩ := by
  simp [walkFn, hinfo, h]

theorem walkFn_entryCalls {σ : Type} (env : Env σ) (item : WalkItem) (s : σ) :
    entryCalls (walkFn env item s).events =
      if item.infoIsNil || item.isDir then [] else [Event.zipCreate item.name] := by
  cases hinfo : item.infoIsNil
  · cases hdir : item.isDir
    · simp only [walkFn, hinfo, hdir]
      repeat' split
      all_goals simp_all [entryCalls, Event.isZipCreate]
    · simp [walkFn_dir env item s hinfo hdir, entryCalls]
  · simp [walkFn_nil env item s hinfo, entryCalls, Event.isZipCreate]

theorem walkFn_calls {σ : Type} (env : Env σ) (item : WalkItem) (s : σ) :
    ∀ e ∈ (walkFn env item s).events, e.isWalkCall = true := by
  cases hinfo : item.infoIsNil
  · cases hdir : item.isDir
    · simp only [walkFn, hinfo, hdir]
      repeat' split
      all_goals simp_all [Event.isWalkCall]
    · simp [walkFn_dir env item s hinfo hdir]
  · simp [walkFn_nil env item s hinfo, Event.isWalkCall]

/-- A callback that ended without a panic was handed an item with `info`. -/
theorem walkFn_info {σ : Type} (env : Env σ) (item : WalkItem) (s : σ)
    (h : (walkFn env item s).panicked = false) : item.infoIsNil = false := by
  cases hinfo : item.infoIsNil
  · rfl
  · rw [walkFn_nil env item s hinfo] at h
    cases h

/-- A callback without error did not panic. -/
theorem walkFn_ok_panicked {σ : Type} (env : Env σ) (item : WalkItem) (s : σ)
    (h : (walkFn env item s).err = none) : (walkFn env item s).panicked = false := by
  cases hinfo : item.infoIsNil
  · cases hdir : item.isDir
    · simp only [walkFn, hinfo, hdir]
      repeat' split
      all_goals simp_all
    · simp [walkFn_dir env item s hinfo hdir]
  · rw [walkFn_nil env item s hinfo] at h
    cases h

theorem walkFn_failed_isDir {σ : Type} (env : Env σ) (item : WalkItem) (s : σ) (err : String)
    (hinfo : item.infoIsNil = false) (h : (walkFn env item s).err = some err) :
    item.isDir = false := by
  cases hdir : item.isDir
  · rfl
  · rw [walkFn_dir env item s hinfo hdir] at h
    cases h

theorem walk_cons {σ : Type} (env : Env σ) (item : WalkItem) (rest : List WalkItem) (s : σ) :
    walk env (item :: rest) s =
      match (walkFn env item s).err with
      | some err =>
        ⟨some err, (walkFn env item s).events, (walkFn env item s).state,
          (walkFn env item s).panicked⟩
      | none =>
        ⟨(walk env rest (walkFn env item s).state).err,
          (walkFn env item s).events ++ (walk env rest (walkFn env item s).state).events,
          (walk env rest (walkFn env item s).state).state,
          (walk env rest (walkFn env item s).state).panicked⟩ := by
  simp only [walk]

theorem walk_calls {σ : Type} (env : Env σ) (items : List WalkItem) (s : σ) :
    ∀ e ∈ (walk env items s).events, e.isWalkCall = true := by
  induction items generalizing s with
  | nil => simp [walk]
  | cons item rest ih =>
    rw [walk_cons]
    have hfn := walkFn_calls env item s
    cases (walkFn env item s).err with
    | some err => exact hfn
    | none =>
      intro e he
      simp only [List.mem_append] at he
      rcases he with he | he
      · exact hfn e he
      · exact ih _ e he

/-- A walk without error did not panic. -/
theorem walk_ok_panicked {σ : Type} (env : Env σ) (items : List WalkItem) (s : σ)
    (hok : (walk env items s).err = none) : (walk env items s).panicked = false := by
  induction items generalizing s with
  | nil => simp [walk]
  | cons item rest ih =>
    rw [walk_cons] at hok ⊢
    cases herr : (walkFn env item s).err with
    | some err => simp [herr] at hok
    | none =>
      simp only [herr] at hok ⊢
      exact ih _ hok

/-- A walk in which every step succeeds creates one archive entry per item that
is not a directory, in walk order, under the name `info.Name()` of the item. -/
theorem walk_ok_entryCalls {σ : Type} (env : Env σ) (items : List WalkItem) (s : σ)
    (hok : (walk env items s).err = none) :
    entryCalls (walk env items s).events =
      (items.filter (fun i => !i.isDir)).map (fun i => Event.zipCreate i.name) := by
  induction items generalizing s with
  | nil => simp [walk, entryCalls]
  | cons item rest ih =>
    rw [walk_cons] at hok ⊢
    have hfn := walkFn_entryCalls env item s
    cases herr : (walkFn env item s).err with
    | some err => simp [herr] at hok
    | none =>
      have hinfo := walkFn_info env item s (walkFn_ok_panicked env item s herr)
      simp only [herr] at hok ⊢
      have hrest := ih _ hok
      simp only [entryCalls] at hfn hrest ⊢
      rw [List.filter_append, hfn, hrest]
      cases hd : item.isDir <;> simp [List.filter_cons, hd, hinfo]

/-- A walk that ends with an error returned by the callback stops at the
failing item: the items before it were walked without error, the failing item
is not a directory, and nothing is called for the items after it. -/
theorem walk_failed_split {σ : Type} (env : Env σ) (items : List WalkItem) (s : σ) (err : String)
    (hfail : (walk env items s).err = some err) (hret : (walk env items s).panicked = false) :
    ∃ before item after, items = before ++ item :: after ∧
      item.infoIsNil = false ∧ item.isDir = false ∧
      (walk env before s).err = none ∧
      (walkFn env item (walk env before s).state).err = some err ∧
      walk env items s =
        ⟨some err,
          (walk env before s).events ++ (walkFn env item (walk env before s).state).events,
          (walkFn env item (walk env before s).state).state, false⟩ := by
  induction items generalizing s with
  | nil => simp [walk] at hfail
  | cons item rest ih =>
    rw [walk_cons] at hfail hret
    cases herr : (walkFn env item s).err with
    | some e =>
      simp only [herr, Option.some.injEq] at hfail hret
      subst hfail
      have hinfo := walkFn_info env item s hret
      refine ⟨[], item, rest, rfl, hinfo, walkFn_failed_isDir env item s e hinfo herr, rfl,
        herr, ?_⟩
      rw [walk_cons, herr]
      simp [walk, hret]
    | none =>
      simp only [herr] at hfail hret
      obtain ⟨before, failing, after, hsplit, hinfo, hdir, hbefore, hfn, hwalk⟩ :=
        ih _ hfail hret
      have hcons : walk env (item :: before) s =
          ⟨none, (walkFn env item s).events ++ (walk env before (walkFn env item s).state).events,
            (walk env before (walkFn env item s).state).state, false⟩ := by
        rw [walk_cons, herr]
        simp [hbefore, walk_ok_panicked env before _ hbefore]
      refine ⟨item :: before, failing, after, by simp [hsplit], hinfo, hdir, ?_, ?_, ?_⟩
      · rw [hcons]
      · rw [hcons]
        exact hfn
      · rw [walk_cons, herr, hcons]
        simp [hwalk]

/-- The events of the export handler for a pack of the registry. -/
theorem download_events {σ : Type} (env : Env σ) (modpack : String) (s s0 : σ)
    (keys : List String) (hmap : env.NewModPackMap s = ((keys, none), s0))
    (hpack : modpack ∈ keys) :
    ModPackDownloadHandler env modpack s =
      if (walk env (env.WalkItems (filepathJoin env.FactorioModPackDir modpack) s0)
          s0).panicked then
        ⟨[Event.newModPackMap,
          Event.setHeader "Content-Disposition" ("attachment; filename=\"" ++ modpack ++ ".zip\""),
          Event.zipNewWriter] ++
          (walk env (env.WalkItems (filepathJoin env.FactorioModPackDir modpack) s0) s0).events ++
          [Event.zipClose],
          (walk env (env.WalkItems (filepathJoin env.FactorioModPackDir modpack) s0) s0).state⟩
      else
      match (walk env (env.WalkItems (filepathJoin env.FactorioModPackDir modpack) s0) s0).err with
      | some err =>
        ⟨[Event.newModPackMap,
          Event.setHeader "Content-Disposition" ("attachment; filename=\"" ++ modpack ++ ".zip\""),
          Event.zipNewWriter] ++
          (walk env (env.WalkItems (filepathJoin env.FactorioModPackDir modpack) s0) s0).events ++
          [Event.log ("error on walking over the modpack: " ++ err),
           Event.writeHeader StatusInternalServerError, jsonHeader,
           Event.writeResponse (Resp.text ("error on walking over the modpack: " ++ err)),
           Event.zipClose],
          (walk env (env.WalkItems (filepathJoin env.FactorioModPackDir modpack) s0) s0).state⟩
      | none =>
        ⟨[Event.newModPackMap,
          Event.setHeader "Content-Disposition" ("attachment; filename=\"" ++ modpack ++ ".zip\""),
          Event.zipNewWriter] ++
          (walk env (env.WalkItems (filepathJoin env.FactorioModPackDir modpack) s0) s0).events ++
          [Event.setHeader "Content-Type" "application/zip;charset=UTF-8", Event.zipClose],
          (walk env (env.WalkItems (filepathJoin env.FactorioModPackDir modpack) s0) s0).state⟩ := by
  have hread := ReadModPackRequest_present env modpack Resp.unset s s0 keys hmap hpack
  simp only [ModPackDownloadHandler, hread]
  cases (walk env (env.WalkItems (filepathJoin env.FactorioModPackDir modpack) s0)
      s0).panicked
  · cases (walk env (env.WalkItems (filepathJoin env.FactorioModPackDir modpack) s0) s0).err <;>
      simp
  · simp

/-- The export of a pack of the registry closes the archive writer exactly
once, as its last call, on every path: after a walk without error, after an
error returned by the callback, and after a panic of the callback. -/
theorem export_closes_last {σ : Type} (env : Env σ) (modpack : String)
    (s s0 : σ) (keys : List String) (hmap : env.NewModPackMap s = ((keys, none), s0))
    (hpack : modpack ∈ keys) :
    ∃ init, (ModPackDownloadHandler env modpack s).events = init ++ [Event.zipClose] ∧
      Event.zipClose ∉ init := by
  have hevents := download_events env modpack s s0 keys hmap hpack
  have hcalls := walk_calls env
    (env.WalkItems (filepathJoin env.FactorioModPackDir modpack) s0) s0
  have hnot : Event.zipClose ∉
      (walk env (env.WalkItems (filepathJoin env.FactorioModPackDir modpack) s0) s0).events := by
    intro hmem
    have := hcalls _ hmem
    simp [Event.isWalkCall] at this
  rw [hevents]
  cases (walk env (env.WalkItems (filepathJoin env.FactorioModPackDir modpack) s0)
      s0).panicked
  · cases (walk env (env.WalkItems (filepathJoin env.FactorioModPackDir modpack) s0) s0).err with
    | some err =>
      refine ⟨[Event.newModPackMap,
          Event.setHeader "Content-Disposition" ("attachment; filename=\"" ++ modpack ++ ".zip\""),
          Event.zipNewWriter] ++
          (walk env (env.WalkItems (filepathJoin env.FactorioModPackDir modpack) s0) s0).events ++
          [Event.log ("error on walking over the modpack: " ++ err),
           Event.writeHeader StatusInternalServerError, jsonHeader,
           Event.writeResponse (Resp.text ("error on walking over the modpack: " ++ err))],
        by simp, ?_⟩
      simp [hnot, jsonHeader]
    | none =>
      refine ⟨[Event.newModPackMap,
          Event.setHeader "Content-Disposition" ("attachment; filename=\"" ++ modpack ++ ".zip\""),
          Event.zipNewWriter] ++
          (walk env (env.WalkItems (filepathJoin env.FactorioModPackDir modpack) s0) s0).events ++
          [Event.setHeader "Content-Type" "application/zip;charset=UTF-8"],
        by simp, ?_⟩
      simp [hnot]
  · refine ⟨[Event.newModPackMap,
        Event.setHeader "Content-Disposition" ("attachment; filename=\"" ++ modpack ++ ".zip\""),
        Event.zipNewWriter] ++
        (walk env (env.WalkItems (filepathJoin env.FactorioModPackDir modpack) s0) s0).events,
      by simp, ?_⟩
    simp [hnot]

/-- The part of the export that stops as the spec asks: when a step of the walk
returns an error (creating an archive entry, opening a file or copying its
content), the items before the failing one were added, the failing item is the
last for which an entry is created, and nothing is called for the items after
it; the handler then logs the error and writes status 500 and the message. -/
theorem export_stops_at_failing_item {σ : Type} (env : Env σ) (modpack : String)
    (s s0 : σ) (keys : List String) (err : String)
    (hmap : env.NewModPackMap s = ((keys, none), s0)) (hpack : modpack ∈ keys)
    (hfail : (walk env (env.WalkItems (filepathJoin env.FactorioModPackDir modpack) s0)
      s0).err = some err)
    (hret : (walk env (env.WalkItems (filepathJoin env.FactorioModPackDir modpack) s0)
      s0).panicked = false) :
    ∃ before item after,
      env.WalkItems (filepathJoin env.FactorioModPackDir modpack) s0
        = before ++ item :: after ∧
      item.infoIsNil = false ∧ item.isDir = false ∧
      (walk env before s0).err = none ∧
      (walkFn env item (walk env before s0).state).err = some err ∧
      (ModPackDownloadHandler env modpack s).events =
        [Event.newModPackMap,
         Event.setHeader "Content-Disposition"
           ("attachment; filename=\"" ++ modpack ++ ".zip\""),
         Event.zipNewWriter] ++
        (walk env before s0).events ++
        (walkFn env item (walk env before s0).state).events ++
        [Event.log ("error on walking over the modpack: " ++ err),
         Event.writeHeader StatusInternalServerError, jsonHeader,
         Event.writeResponse (Resp.text ("error on walking over the modpack: " ++ err)),
         Event.zipClose] ∧
      entryCalls (ModPackDownloadHandler env modpack s).events =
        ((before ++ [item]).filter (fun i => !i.isDir)).map
          (fun i => Event.zipCreate i.name) ∧
      (ModPackDownloadHandler env modpack s).state =
        (walkFn env item (walk env before s0).state).state := by
  have hevents := download_events env modpack s s0 keys hmap hpack
  obtain ⟨before, item, after, hsplit, hinfo, hdir, hbefore, hfn, hwalk⟩ :=
    walk_failed_split env _ s0 err hfail hret
  refine ⟨before, item, after, hsplit, hinfo, hdir, hbefore, hfn, ?_⟩
  rw [hevents, hwalk]
  have h1 := walk_ok_entryCalls env before s0 hbefore
  have h2 := walkFn_entryCalls env item (walk env before s0).state
  simp only [entryCalls] at h1 h2
  refine ⟨by simp, ?_, rfl⟩
  simp [entryCalls, List.filter_append, h1, h2, hinfo, hdir, Event.isZipCreate, jsonHeader]

/-- C8: the export of `vanilla-plus` when the copy of the first mod file breaks
off.  No further file is added, and the handler logs the error and calls
`WriteHeader(500)` and `WriteResponse` with the message; the deferred
`zipWriter.Close()` of line 149 then closes the archive writer, after the
error, into the response that already holds the archive bytes.  When instead a
file is removed before `Lstat` reaches it, the callback panics on the nil `info`
and the deferred close runs as well. -/
theorem C8_archive_closed_after_error :
    (ModPackDownloadHandler World.env "vanilla-plus" damagedWorld).events =
      [Event.newModPackMap,
       Event.setHeader "Content-Disposition" "attachment; filename=\"vanilla-plus.zip\"",
       Event.zipNewWriter,
       Event.zipCreate "modA_1.0.0.zip",
       Event.osOpen "mod_packs/vanilla-plus/modA_1.0.0.zip",
       Event.ioCopy "mod_packs/vanilla-plus/modA_1.0.0.zip",
       Event.log "error on copying file into zip: unexpected EOF",
       Event.fileClose "mod_packs/vanilla-plus/modA_1.0.0.zip",
       Event.log "error on walking over the modpack: unexpected EOF",
       Event.writeHeader 500,
       Event.setHeader "Content-Type" "application/json;charset=UTF-8",
       Event.writeResponse (Resp.text "error on walking over the modpack: unexpected EOF"),
       Event.zipClose] ∧
    ¬ NotClosedAfterError World.env "vanilla-plus" damagedWorld ∧
    (ModPackDownloadHandler World.env "vanilla-plus" vanishedWorld).events =
      [Event.newModPackMap,
       Event.setHeader "Content-Disposition" "attachment; filename=\"vanilla-plus.zip\"",
       Event.zipNewWriter,
       Event.zipCreate "modA_1.0.0.zip",
       Event.osOpen "mod_packs/vanilla-plus/modA_1.0.0.zip",
       Event.ioCopy "mod_packs/vanilla-plus/modA_1.0.0.zip",
       Event.fileClose "mod_packs/vanilla-plus/modA_1.0.0.zip",
       Event.panic "invalid memory address or nil pointer dereference",
       Event.zipClose] := by
  refine ⟨by decide, ?_, by decide⟩
  intro h
  exact h "unexpected EOF"
    [Event.newModPackMap,
     Event.setHeader "Content-Disposition" "attachment; filename=\"vanilla-plus.zip\"",
     Event.zipNewWriter,
     Event.zipCreate "modA_1.0.0.zip",
     Event.osOpen "mod_packs/vanilla-plus/modA_1.0.0.zip",
     Event.ioCopy "mod_packs/vanilla-plus/modA_1.0.0.zip",
     Event.log "error on copying file into zip: unexpected EOF",
     Event.fileClose "mod_packs/vanilla-plus/modA_1.0.0.zip"]
    [Event.writeHeader 500,
     Event.setHeader "Content-Type" "application/json;charset=UTF-8",
     Event.writeResponse (Resp.text "error on walking over the modpack: unexpected EOF"),
     Event.zipClose]
    (by decide) (by decide)

/-- C9: in an export in which every step of the walk succeeds, the archive
entries created are exactly one per item that is not a directory, in walk
order, each under the base name `info.Name()` of the item, whatever its path; no
entry is created for a directory. -/
theorem C9_export_entries_flat {σ : Type} (env : Env σ) (modpack : String) (s s0 : σ)
    (keys : List String) (hmap : env.NewModPackMap s = ((keys, none), s0))
    (hpack : modpack ∈ keys)
    (hok : (walk env (env.WalkItems (filepathJoin env.FactorioModPackDir modpack) s0) s0).err
      = none) :
    entryCalls (ModPackDownloadHandler env modpack s).events =
      ((env.WalkItems (filepathJoin env.FactorioModPackDir modpack) s0).filter
        (fun i => !i.isDir)).map (fun i => Event.zipCreate i.name) := by
  have h := walk_ok_entryCalls env _ s0 hok
  rw [download_events env modpack s s0 keys hmap hpack, walk_ok_panicked env _ s0 hok, hok]
  simp only [entryCalls] at h
  simp [entryCalls, List.filter_append, h, Event.isZipCreate]

/-- C9, at a concrete input: the pack directory with two mod files and the
manifest.  The entries are the three base names; the directory itself has none. -/
theorem C9_export_entries_flat_witness :
    (walk World.env (World.env.WalkItems (filepathJoin World.env.FactorioModPackDir
        "vanilla-plus") filledWorld) filledWorld).err = none ∧
    entryCalls (ModPackDownloadHandler World.env "vanilla-plus" filledWorld).events =
      [Event.zipCreate "modA_1.0.0.zip", Event.zipCreate "modB_1.0.0.zip",
       Event.zipCreate "mod-list.json"] :=
  ⟨by decide,
    C9_export_entries_flat World.env "vanilla-plus" filledWorld filledWorld ["vanilla-plus"]
      rfl (by decide) (by decide)⟩

end ModPackHandler
